import Mathlib

/-!
# Verification of the knowledge-graph conflict-detection engine

Shallow embedding of the conflict/contradiction detection engine
(`detectConflicts`, `getConflictSummary` and their helpers) together with
proofs settling the specification claims.

Strings are modelled as Lean `String` (a wrapper around `List Char`); the
core text transformations are defined on `List Char`.  JavaScript semantics
are mirrored explicitly: `\w` is `[A-Za-z0-9_]`, `\s` is the JS whitespace
class, `String.prototype.trim` strips that class from both ends, and the
truthiness of optional string fields (`x || y`) is empty-string-or-absent
falsiness.
-/

namespace KG

/- `Rat.mul`, `Rat.inv`, `Rat.add` and `Rat.sub` are irreducible by default,
which blocks evaluation of the similarity scores inside `decide`; the engine
is executable, so make them transparent for elaboration in this file. -/
attribute [local semireducible] Rat.mul Rat.inv Rat.add Rat.sub

/-- JS `\w` character class: ASCII letters, digits and underscore. -/
def isWordChar (c : Char) : Bool :=
  (('a' ≤ c && c ≤ 'z') || ('A' ≤ c && c ≤ 'Z') || ('0' ≤ c && c ≤ '9') || c = '_')

/-- JS `\s` character class (WhiteSpace ∪ LineTerminator). -/
def isJsSpace (c : Char) : Bool :=
  c = ' ' || c = '\t' || c = '\n' || c = '\r' ||
  c.val = 11 || c.val = 12 || c.val = 0xa0 || c.val = 0x1680 ||
  (0x2000 ≤ c.val && c.val ≤ 0x200a) ||
  c.val = 0x2028 || c.val = 0x2029 || c.val = 0x202f || c.val = 0x205f ||
  c.val = 0x3000 || c.val = 0xfeff

/-- `String.prototype.toLowerCase`, per character (ASCII range, as in
`Char.toLower`). -/
def jsLowerChar (c : Char) : Char := c.toLower

/-- Lowercase a character list. -/
def lowerL (l : List Char) : List Char := l.map jsLowerChar

/-- Drop a trailing run of JS whitespace. -/
def trimTrailing : List Char → List Char
  | [] => []
  | c :: rest =>
    let r := trimTrailing rest
    if r.isEmpty && isJsSpace c then [] else c :: r

/-- `String.prototype.trim`: drop JS whitespace from both ends. -/
def trimL (l : List Char) : List Char :=
  trimTrailing (l.dropWhile (fun c => isJsSpace c))

/-- `.replace(/\s+/g, " ")`: collapse every maximal run of JS whitespace to a
single space (the run is replaced at the position of its last character,
which produces the same string as replacing it at its first). -/
def collapseWsL : List Char → List Char
  | [] => []
  | [c] => if isJsSpace c then [' '] else [c]
  | c :: d :: rest =>
    if isJsSpace c && isJsSpace d then collapseWsL (d :: rest)
    else if isJsSpace c then ' ' :: collapseWsL (d :: rest)
    else c :: collapseWsL (d :: rest)

/-- Core of `normalizeString`:
lowercase, trim, remove all `[^\w\s]` characters, collapse `\s+` runs. -/
def normalizeL (l : List Char) : List Char :=
  collapseWsL (((trimL (lowerL l))).filter (fun c => isWordChar c || isJsSpace c))

/-- `normalizeString(str)` from the source. -/
def normalizeString (s : String) : String := ⟨normalizeL s.data⟩

/-- `normalizePhone(phone)`: strip every non-digit character. -/
def normalizePhone (s : String) : String := ⟨s.data.filter (fun c => c.isDigit)⟩

/-- Levenshtein distance (unit-cost insert/delete/substitute).  The source
fills a `(len2+1) × (len1+1)` dynamic-programming matrix with exactly this
recurrence (`matrix[j][i] = min(matrix[j][i-1]+1, matrix[j-1][i]+1,
matrix[j-1][i-1]+cost)`); the recursive definition is the recurrence the
table computes. -/
def levAux (x : Char) (xs : List Char) (f : List Char → Nat) : List Char → Nat
  | [] => xs.length + 1
  | y :: ys =>
    min (min (levAux x xs f ys + 1) (f (y :: ys) + 1))
      (f ys + (if x = y then 0 else 1))

def lev : List Char → List Char → Nat
  | [], ys => ys.length
  | x :: xs, ys => levAux x xs (lev xs) ys

/-- The new-row/old-row recurrence of the DP table, as an equation on `lev`. -/
theorem lev_cons_cons (x : Char) (xs : List Char) (y : Char) (ys : List Char) :
    lev (x :: xs) (y :: ys) =
      min (min (lev (x :: xs) ys + 1) (lev xs (y :: ys) + 1))
        (lev xs ys + (if x = y then 0 else 1)) := rfl

/-- Core of `calculateSimilarity` on character lists: early returns for the
empty cases, otherwise `(maxLen - distance) / maxLen` (values in `ℚ`). -/
def simCore (l1 l2 : List Char) : ℚ :=
  if l1.length = 0 then (if l2.length = 0 then 1 else 0)
  else if l2.length = 0 then 0
  else (((max l1.length l2.length : Nat) : ℚ) - (lev l1 l2 : ℚ)) /
    ((max l1.length l2.length : Nat) : ℚ)

/-- `calculateSimilarity(str1, str2)` from the source. -/
def calculateSimilarity (s1 s2 : String) : ℚ := simCore s1.data s2.data

theorem lev_nil_left (ys : List Char) : lev [] ys = ys.length := rfl

theorem lev_nil_right (xs : List Char) : lev xs [] = xs.length := by
  cases xs <;> rfl

theorem lev_self (l : List Char) : lev l l = 0 := by
  induction l with
  | nil => rfl
  | cons x xs ih =>
    rw [lev_cons_cons, ih, if_pos rfl]
    omega

theorem lev_comm : ∀ (xs ys : List Char), lev xs ys = lev ys xs := by
  intro xs
  induction xs with
  | nil => intro ys; rw [lev_nil_left, lev_nil_right]
  | cons x xs ih1 =>
    intro ys
    induction ys with
    | nil => rw [lev_nil_left, lev_nil_right]
    | cons y ys ih2 =>
      simp only [lev_cons_cons]
      rw [ih1 (y :: ys), ih2, ih1 ys]
      have hc : (if x = y then 0 else 1) = (if y = x then 0 else 1) := by
        by_cases h : x = y
        · simp [h]
        · rw [if_neg h, if_neg (fun h' => h h'.symm)]
      rw [hc]
      omega

theorem lev_le_max : ∀ (xs ys : List Char), lev xs ys ≤ max xs.length ys.length := by
  intro xs
  induction xs with
  | nil => intro ys; rw [lev_nil_left]; omega
  | cons x xs ih1 =>
    intro ys
    induction ys with
    | nil => rw [lev_nil_right]; simp
    | cons y ys ih2 =>
      have h1 := ih1 ys
      simp only [lev_cons_cons, List.length_cons]
      have hc : (if x = y then 0 else 1) ≤ 1 := by split <;> omega
      simp only [List.length_cons] at ih2
      have h3 := ih1 (y :: ys)
      simp only [List.length_cons] at h3
      omega

theorem simCore_self (l : List Char) : simCore l l = 1 := by
  unfold simCore
  by_cases h : l.length = 0
  · simp [h]
  · rw [if_neg h, if_neg h, lev_self, max_self]
    push_cast
    rw [sub_zero, div_self]
    exact_mod_cast h

theorem simCore_comm (l1 l2 : List Char) : simCore l1 l2 = simCore l2 l1 := by
  unfold simCore
  by_cases h1 : l1.length = 0
  · by_cases h2 : l2.length = 0 <;> simp [h1, h2]
  by_cases h2 : l2.length = 0
  · simp [h1, h2]
  rw [if_neg h1, if_neg h2, if_neg h2, if_neg h1, lev_comm l1 l2, max_comm]

theorem simCore_nonneg (l1 l2 : List Char) : 0 ≤ simCore l1 l2 := by
  unfold simCore
  by_cases h1 : l1.length = 0
  · by_cases h2 : l2.length = 0 <;> simp [h1, h2]
  by_cases h2 : l2.length = 0
  · simp [h1, h2]
  rw [if_neg h1, if_neg h2]
  have hle := lev_le_max l1 l2
  apply div_nonneg
  · have : (lev l1 l2 : ℚ) ≤ ((max l1.length l2.length : Nat) : ℚ) := by exact_mod_cast hle
    linarith
  · positivity

theorem simCore_le_one (l1 l2 : List Char) : simCore l1 l2 ≤ 1 := by
  unfold simCore
  by_cases h1 : l1.length = 0
  · by_cases h2 : l2.length = 0 <;> simp [h1, h2]
  by_cases h2 : l2.length = 0
  · simp [h1, h2]
  rw [if_neg h1, if_neg h2]
  have hpos : (0 : ℚ) < ((max l1.length l2.length : Nat) : ℚ) := by
    have : 0 < max l1.length l2.length := by omega
    exact_mod_cast this
  rw [div_le_one hpos]
  have : (0 : ℚ) ≤ (lev l1 l2 : ℚ) := by positivity
  linarith

theorem toLower_idem (c : Char) : (c.toLower).toLower = c.toLower := by
  by_cases h : 65 ≤ c.toNat ∧ c.toNat ≤ 90
  · have hl : c.toLower = Char.ofNat (c.toNat + 32) := by
      unfold Char.toLower
      rw [if_pos ⟨h.1, h.2⟩]
    rw [hl]
    obtain ⟨h1, h2⟩ := h
    generalize c.toNat = n at h1 h2 ⊢
    interval_cases n <;> decide
  · have hl : c.toLower = c := by
      unfold Char.toLower
      rw [if_neg h]
    rw [hl]
    exact hl

theorem mem_collapseWsL : ∀ (l : List Char) (c : Char), c ∈ collapseWsL l → c = ' ' ∨ c ∈ l := by
  intro l
  induction l using collapseWsL.induct with
  | case1 => intro c hc; simp [collapseWsL] at hc
  | case2 c hsp =>
    intro e he
    simp only [collapseWsL, if_pos hsp] at he
    simp at he
    exact Or.inl he
  | case3 c hsp =>
    intro e he
    simp only [collapseWsL, if_neg hsp] at he
    exact Or.inr he
  | case4 c d rest hrun ih =>
    intro e he
    simp only [collapseWsL, if_pos hrun] at he
    rcases ih e he with h | h
    · exact Or.inl h
    · exact Or.inr (List.mem_cons_of_mem _ h)
  | case5 c d rest hrun hsp ih =>
    intro e he
    simp only [collapseWsL, if_neg hrun, if_pos hsp] at he
    rcases List.mem_cons.mp he with h | h
    · exact Or.inl h
    · rcases ih e h with h2 | h2
      · exact Or.inl h2
      · exact Or.inr (List.mem_cons_of_mem _ h2)
  | case6 c d rest hrun hsp ih =>
    intro e he
    simp only [collapseWsL, if_neg hrun, if_neg hsp] at he
    rcases List.mem_cons.mp he with h | h
    · exact Or.inr (h ▸ List.mem_cons_self _ _)
    · rcases ih e h with h2 | h2
      · exact Or.inl h2
      · exact Or.inr (List.mem_cons_of_mem _ h2)

/-- Well-spacedness: the output shape of `.replace(/\s+/g, " ")` — every
whitespace character is a plain space and no whitespace character is
immediately followed by another. -/
def wellSpacedB : List Char → Bool
  | [] => true
  | [c] => !isJsSpace c || c = ' '
  | c :: d :: rest =>
    (!isJsSpace c || (decide (c = ' ') && !isJsSpace d)) && wellSpacedB (d :: rest)

theorem wellSpacedB_tail {c : Char} {l : List Char} (h : wellSpacedB (c :: l)) :
    wellSpacedB l := by
  match l with
  | [] => rfl
  | d :: rest =>
    simp only [wellSpacedB, Bool.and_eq_true] at h
    exact h.2

theorem collapseWsL_cons2_run {c d : Char} {rest : List Char} (hc : isJsSpace c = true)
    (hd : isJsSpace d = true) : collapseWsL (c :: d :: rest) = collapseWsL (d :: rest) := by
  simp [collapseWsL, hc, hd]

theorem collapseWsL_cons2_sp {c d : Char} {rest : List Char} (hc : isJsSpace c = true)
    (hd : isJsSpace d = false) :
    collapseWsL (c :: d :: rest) = ' ' :: collapseWsL (d :: rest) := by
  simp [collapseWsL, hc, hd]

theorem collapseWsL_cons2_nosp {c d : Char} {rest : List Char} (hc : isJsSpace c = false) :
    collapseWsL (c :: d :: rest) = c :: collapseWsL (d :: rest) := by
  simp [collapseWsL, hc]

theorem wellSpacedB_cons2 (c d : Char) (rest : List Char) :
    wellSpacedB (c :: d :: rest) =
      ((!isJsSpace c || (decide (c = ' ') && !isJsSpace d)) && wellSpacedB (d :: rest)) := rfl

theorem collapse_cons_of_nonspace (d : Char) (rest : List Char) (hd : isJsSpace d = false) :
    ∃ t, collapseWsL (d :: rest) = d :: t := by
  match rest with
  | [] => exact ⟨[], by simp [collapseWsL, hd]⟩
  | e :: rest2 => exact ⟨collapseWsL (e :: rest2), by simp [collapseWsL, hd]⟩

theorem collapse_ws : ∀ l, wellSpacedB (collapseWsL l) = true := by
  intro l
  induction l using collapseWsL.induct with
  | case1 => rfl
  | case2 c hsp => simp [collapseWsL, hsp, wellSpacedB]
  | case3 c hsp =>
    have hc : isJsSpace c = false := by
      cases h : isJsSpace c
      · rfl
      · exact absurd h hsp
    simp [collapseWsL, hc, wellSpacedB]
  | case4 c d rest hrun ih =>
    obtain ⟨hc, hd⟩ := (Bool.and_eq_true _ _).mp hrun
    rw [collapseWsL_cons2_run hc hd]
    exact ih
  | case5 c d rest hrun hsp ih =>
    have hd : isJsSpace d = false := by
      cases h : isJsSpace d
      · rfl
      · exact absurd (by rw [hsp, h]; rfl) hrun
    rw [collapseWsL_cons2_sp hsp hd]
    obtain ⟨t, ht⟩ := collapse_cons_of_nonspace d rest hd
    rw [ht]
    rw [ht] at ih
    rw [wellSpacedB_cons2]
    simp [hd, ih]
  | case6 c d rest hrun hsp ih =>
    have hc : isJsSpace c = false := by
      cases h : isJsSpace c
      · rfl
      · exact absurd h hsp
    rw [collapseWsL_cons2_nosp hc]
    cases hcl : collapseWsL (d :: rest) with
    | nil => simp [wellSpacedB, hc]
    | cons e t =>
      rw [hcl] at ih
      rw [wellSpacedB_cons2]
      simp [hc, ih]

theorem collapse_eq_self : ∀ l, wellSpacedB l = true → collapseWsL l = l := by
  intro l
  induction l using collapseWsL.induct with
  | case1 => intro _; rfl
  | case2 c hsp =>
    intro hws
    have hce : c = ' ' := by
      have h0 : (!isJsSpace c || decide (c = ' ')) = true := hws
      simpa [hsp] using h0
    simp [collapseWsL, hsp, hce]
  | case3 c hsp =>
    intro _
    have hc : isJsSpace c = false := by
      cases h : isJsSpace c
      · rfl
      · exact absurd h hsp
    simp [collapseWsL, hc]
  | case4 c d rest hrun ih =>
    intro hws
    obtain ⟨hc, hd⟩ := (Bool.and_eq_true _ _).mp hrun
    exfalso
    rw [wellSpacedB_cons2] at hws
    simp [hc, hd] at hws
  | case5 c d rest hrun hsp ih =>
    intro hws
    have hd : isJsSpace d = false := by
      cases h : isJsSpace d
      · rfl
      · exact absurd (by rw [hsp, h]; rfl) hrun
    rw [wellSpacedB_cons2] at hws
    obtain ⟨h1, h2⟩ := (Bool.and_eq_true _ _).mp hws
    have hceq : c = ' ' := by simpa [hsp, hd] using h1
    rw [collapseWsL_cons2_sp hsp hd, ih h2, hceq]
  | case6 c d rest hrun hsp ih =>
    intro hws
    have hc : isJsSpace c = false := by
      cases h : isJsSpace c
      · rfl
      · exact absurd h hsp
    rw [collapseWsL_cons2_nosp hc, ih (wellSpacedB_tail hws)]

theorem mem_trimTrailing : ∀ (l : List Char) (c : Char), c ∈ trimTrailing l → c ∈ l := by
  intro l
  induction l with
  | nil => intro c hc; simp [trimTrailing] at hc
  | cons a rest ih =>
    intro c hc
    simp only [trimTrailing] at hc
    split at hc
    · simp at hc
    · rcases List.mem_cons.mp hc with h | h
      · exact h ▸ List.mem_cons_self _ _
      · exact List.mem_cons_of_mem _ (ih c h)

theorem trimL_subset (l : List Char) : ∀ c ∈ trimL l, c ∈ l := by
  intro c hc
  unfold trimL at hc
  exact (List.dropWhile_sublist _).subset (mem_trimTrailing _ c hc)

theorem trimTrailing_shape (d : Char) (rest : List Char) :
    trimTrailing (d :: rest) = [] ∨ ∃ t, trimTrailing (d :: rest) = d :: t := by
  simp only [trimTrailing]
  split
  · exact Or.inl rfl
  · exact Or.inr ⟨_, rfl⟩

theorem ws_trimTrailing : ∀ l, wellSpacedB l = true → wellSpacedB (trimTrailing l) = true := by
  intro l
  induction l with
  | nil => intro _; rfl
  | cons a rest ih =>
    intro hws
    show wellSpacedB
      (if (trimTrailing rest).isEmpty && isJsSpace a then [] else a :: trimTrailing rest) = true
    by_cases hcond : ((trimTrailing rest).isEmpty && isJsSpace a) = true
    · rw [if_pos hcond]; rfl
    · rw [if_neg hcond]
      have hr := ih (wellSpacedB_tail hws)
      cases hrt : trimTrailing rest with
      | nil =>
        have ha : isJsSpace a = false := by
          cases h : isJsSpace a
          · rfl
          · exact absurd (by rw [hrt]; simp [h]) hcond
        simp [wellSpacedB, ha]
      | cons e t =>
        match rest, hrt, hws with
        | d :: rest2, hrt, hws =>
          have hed : e = d := by
            rcases trimTrailing_shape d rest2 with hsh | ⟨t2, hsh⟩
            · rw [hsh] at hrt; cases hrt
            · rw [hsh] at hrt
              injection hrt with h1 _
              exact h1.symm
          subst hed
          rw [hrt] at hr
          rw [wellSpacedB_cons2]
          rw [wellSpacedB_cons2] at hws
          obtain ⟨h1, _⟩ := (Bool.and_eq_true _ _).mp hws
          exact (Bool.and_eq_true _ _).mpr ⟨h1, hr⟩

theorem ws_dropWhile : ∀ l, wellSpacedB l = true →
    wellSpacedB (l.dropWhile (fun c => isJsSpace c)) = true := by
  intro l
  induction l with
  | nil => intro _; rfl
  | cons a rest ih =>
    intro hws
    by_cases h : isJsSpace a = true
    · rw [List.dropWhile_cons_of_pos (by simpa using h)]
      exact ih (wellSpacedB_tail hws)
    · rw [List.dropWhile_cons_of_neg (by simpa using h)]
      exact hws

theorem ws_trimL (l : List Char) (h : wellSpacedB l = true) : wellSpacedB (trimL l) = true :=
  ws_trimTrailing _ (ws_dropWhile _ h)

theorem map_eq_self_of_fixed {f : Char → Char} : ∀ (l : List Char), (∀ c ∈ l, f c = c) → l.map f = l := by
  intro l
  induction l with
  | nil => intro _; rfl
  | cons a rest ih =>
    intro h
    simp only [List.map_cons, h a (by simp), ih (fun c hc => h c (List.mem_cons_of_mem _ hc))]

/-- Characters surviving `normalizeL` are kept by the `[^\w\s]` filter and are
fixed points of lowercasing. -/
theorem normalizeL_chars (l : List Char) :
    ∀ c ∈ normalizeL l, (isWordChar c || isJsSpace c) = true ∧ c.toLower = c := by
  intro c hc
  unfold normalizeL at hc
  rcases mem_collapseWsL _ c hc with h | h
  · subst h
    exact ⟨by decide, by decide⟩
  · have hkeep := List.of_mem_filter h
    have hmem := List.mem_of_mem_filter h
    have hml : c ∈ lowerL l := trimL_subset _ c hmem
    obtain ⟨c0, _, hc0⟩ := List.mem_map.mp hml
    refine ⟨hkeep, ?_⟩
    rw [← hc0]
    exact toLower_idem c0

/-- Applying `normalizeString` twice equals trimming its single application:
the only way a second pass changes anything is by removing a leading or
trailing space left behind when edge punctuation was deleted. -/
theorem normalizeL_twice (l : List Char) :
    normalizeL (normalizeL l) = trimL (normalizeL l) := by
  have hchars := normalizeL_chars l
  conv_lhs => rw [normalizeL]
  have hlower : lowerL (normalizeL l) = normalizeL l :=
    map_eq_self_of_fixed _ (fun c hc => (hchars c hc).2)
  rw [show lowerL (normalizeL l) = normalizeL l from hlower]
  have hws : wellSpacedB (normalizeL l) = true := collapse_ws _
  have htrimws := ws_trimL _ hws
  have hfilter : (trimL (normalizeL l)).filter (fun c => isWordChar c || isJsSpace c) =
      trimL (normalizeL l) :=
    List.filter_eq_self.mpr (fun c hc => (hchars c (trimL_subset _ c hc)).1)
  rw [hfilter]
  exact collapse_eq_self _ htrimws

theorem normalizeString_twice (s : String) :
    normalizeString (normalizeString s) = ⟨trimL (normalizeString s).data⟩ := by
  unfold normalizeString
  exact congrArg String.mk (normalizeL_twice s.data)


/-! ## JS string helpers -/

/-- JS string truthiness fallback `a || b`. -/
def jsOr (a b : String) : String := if a = "" then b else a

/-- Value of an optional string field (`undefined` reads as empty). -/
def optStr (o : Option String) : String := o.getD ""

/-- Truthiness of an optional string field: present and non-empty. -/
def truthyS (o : Option String) : Bool := decide (optStr o ≠ "")

/-- `substring(a, b)` core on lists (clamping is Nat subtraction/`take`). -/
def subL (l : List Char) (a b : Nat) : List Char := (l.take b).drop a

/-- JS `s.substring(a, b)` for `a ≤ b`. -/
def jsSubstring (s : String) (a b : Nat) : String := ⟨subL s.data a b⟩

/-- Lowercase a string (`toLowerCase`). -/
def jsLowerS (s : String) : String := ⟨lowerL s.data⟩

/-- The apostrophe character (U+0027). -/
def apos : Char := Char.ofNat 39

/-- The apostrophe as a string. -/
def aposS : String := ⟨[apos]⟩

/-! ## Regex scanning framework

Each regular expression of the source is implemented as a matcher trying to
match at the head of a character list, returning the full match plus its
payload (capture groups).  `scanAll` reproduces `matchAll` with a `/g` flag:
scan left to right, on a match continue after it, otherwise advance one
character.  The fuel argument (instantiated with the list length) only
discharges termination; every step consumes at least one character. -/

def scanAll {α : Type} (m : List Char → Option (List Char × α)) :
    Nat → Nat → List Char → List (Nat × List Char × α)
  | 0, _, _ => []
  | fuel + 1, i, l =>
    match l with
    | [] => []
    | _ :: rest =>
      match m l with
      | some (full, a) =>
        let k := max 1 full.length
        (i, full, a) :: scanAll m fuel (i + k) (l.drop k)
      | none => scanAll m fuel (i + 1) rest

/-- Does `s` start with `pat` (case sensitive)? -/
def startsWithL : List Char → List Char → Bool
  | [], _ => true
  | _ :: _, [] => false
  | p :: ps, c :: cs => p = c && startsWithL ps cs

/-- Does `s` start with `pat`, ignoring case (`/i` flag)? -/
def ciStartsWithL : List Char → List Char → Bool
  | [], _ => true
  | _ :: _, [] => false
  | p :: ps, c :: cs => p.toLower = c.toLower && ciStartsWithL ps cs

/-- First alternative of a literal alternation matching at the head of `s`
(alternatives are tried left to right, as in a regex alternation); returns
the matched slice of `s`. -/
def tryAlts (alts : List (List Char)) (s : List Char) : Option (List Char) :=
  alts.findSome? (fun a => if ciStartsWithL a s then some (s.take a.length) else none)

/-- JS `hay.includes(needle)` (case sensitive). -/
def containsSub (hay needle : List Char) : Bool :=
  match hay with
  | [] => needle.isEmpty
  | _ :: t => startsWithL needle hay || containsSub t needle

/-- Leading digit run. -/
def takeDigits (s : List Char) : List Char := s.takeWhile (fun c => c.isDigit)

/-- Exactly `n` leading digits (what is matched by a `\d{n}` in front of the
rest of a pattern). -/
def matchNDigits (n : Nat) (s : List Char) : Option (List Char) :=
  let d := s.take n
  if d.length = n && d.all (fun c => c.isDigit) then some d else none

/-! ## Fact extraction (`extractFacts`) -/

/-- A typed factual claim with its surrounding context window. -/
structure Fact where
  type : String
  value : String
  context : String
  deriving DecidableEq, Repr

/-- `\d{1,2}` followed by a literal `/` (greedy on the digits; the
alternatives are mutually exclusive because a digit is not a slash). -/
def mD12Slash : List Char → Option (List Char × List Char)
  | a :: b :: c :: rest =>
    if a.isDigit && b.isDigit && c = '/' then some ([a, b, c], rest)
    else if a.isDigit && b = '/' then some ([a, b], c :: rest)
    else none
  | a :: b :: rest =>
    if a.isDigit && b = '/' then some ([a, b], rest) else none
  | _ => none

/-- `\d{1,2}\/\d{1,2}\/\d{4}`. -/
def matchSlashDate (s : List Char) : Option (List Char) :=
  match mD12Slash s with
  | some (p1, r1) =>
    match mD12Slash r1 with
    | some (p2, r2) =>
      match matchNDigits 4 r2 with
      | some d4 => some (p1 ++ p2 ++ d4)
      | none => none
    | none => none
  | none => none

/-- `\d{4}-\d{2}-\d{2}`. -/
def matchDashDate (s : List Char) : Option (List Char) :=
  match matchNDigits 4 s with
  | some d4 =>
    match s.drop 4 with
    | '-' :: r1 =>
      match matchNDigits 2 r1 with
      | some m2 =>
        match r1.drop 2 with
        | '-' :: r2 =>
          match matchNDigits 2 r2 with
          | some d2 => some (d4 ++ '-' :: m2 ++ '-' :: d2)
          | none => none
        | _ => none
      | none => none
    | _ => none
  | none => none

/-- The date alternation `(\d{1,2}\/\d{1,2}\/\d{4}|\d{4}-\d{2}-\d{2}|\d{4})`,
alternatives tried in order; group 1 is the whole match. -/
def matchDateFull (s : List Char) : Option (List Char × List Char) :=
  match matchSlashDate s with
  | some m => some (m, m)
  | none =>
    match matchDashDate s with
    | some m => some (m, m)
    | none =>
      match matchNDigits 4 s with
      | some m => some (m, m)
      | none => none

/-- Unit stems of the quantity regex, in alternation order (each has an
optional plural `s?`). -/
def unitWords : List (List Char) :=
  ["year", "month", "day", "hour", "minute", "second", "time", "unit", "item",
    "piece", "step", "version"].map String.data

/-- Match one unit word with optional greedy plural, case-insensitively. -/
def mUnit (s : List Char) : Option (List Char) :=
  unitWords.findSome? (fun stem =>
    if ciStartsWithL stem s then
      match s.drop stem.length with
      | c :: _ => if c.toLower = 's' then some (s.take (stem.length + 1))
                  else some (s.take stem.length)
      | [] => some (s.take stem.length)
    else none)

/-- `(\d+(?:\.\d+)?)\s*(unit…)`: returns (full match, number group, unit
group).  If the optional fraction is present but no unit follows it, the
regex backtracks to the fraction-less reading. -/
def matchQuantity (s : List Char) : Option (List Char × List Char × List Char) :=
  let num := takeDigits s
  if num.isEmpty then none else
  let afterNum := s.drop num.length
  let tryTail := fun (numAll : List Char) (r : List Char) =>
    let sp := r.takeWhile (fun c => isJsSpace c)
    match mUnit (r.drop sp.length) with
    | some u => some (numAll ++ sp ++ u, numAll, u)
    | none => none
  match afterNum with
  | '.' :: r2 =>
    let frac := takeDigits r2
    if frac.isEmpty then tryTail num afterNum
    else
      match tryTail (num ++ '.' :: frac) (r2.drop frac.length) with
      | some res => some res
      | none => tryTail num afterNum
  | _ => tryTail num afterNum

/-- Cue phrases of the name regex, in alternation order (their first two
characters are pairwise distinct, so the alternatives are exclusive). -/
def nameCues : List (List Char) :=
  ["named", "called", "known as", "referred to as", "created by",
    "invented by"].map String.data

/-- `[A-Z][a-z]+` under `/i`: a letter followed by one or more letters. -/
def mNameWord : List Char → Option (List Char)
  | c :: rest =>
    if c.isAlpha then
      let t := rest.takeWhile (fun c => c.isAlpha)
      if t.isEmpty then none else some (c :: t)
    else none
  | [] => none

/-- Greedy `(?:\s+[A-Z][a-z]+)*` loop; returns the consumed characters. -/
def mMoreNameWords : Nat → List Char → List Char
  | 0, _ => []
  | fuel + 1, s =>
    let sp := s.takeWhile (fun c => isJsSpace c)
    if sp.isEmpty then [] else
    match mNameWord (s.drop sp.length) with
    | some w => sp ++ w ++ mMoreNameWords fuel ((s.drop sp.length).drop w.length)
    | none => []

/-- The name regex `(?:cue)\s+([A-Z][a-z]+(?:\s+[A-Z][a-z]+)*)` with `/i`;
returns (full match, captured name). -/
def matchName (s : List Char) : Option (List Char × List Char) :=
  nameCues.findSome? (fun cue =>
    if ciStartsWithL cue s then
      let r1 := s.drop cue.length
      let sp := r1.takeWhile (fun c => isJsSpace c)
      if sp.isEmpty then none else
      match mNameWord (r1.drop sp.length) with
      | some w =>
        let more := mMoreNameWords r1.length ((r1.drop sp.length).drop w.length)
        some (s.take cue.length ++ sp ++ w ++ more, w ++ more)
      | none => none
    else none)

/-- `doesn't exist` (the apostrophe never survives `normalizeString`, so this
alternative cannot fire on normalized text — kept faithfully anyway). -/
def doesntExist : String := "doesn" ++ aposS ++ "t exist"

/-- Vocabulary of the boolean-claim regex, in alternation order. -/
def boolWords : List (List Char) :=
  ["true".data, "false".data, "yes".data, "no".data, "correct".data,
    "incorrect".data, "right".data, "wrong".data, "accurate".data,
    "inaccurate".data, "exists".data, doesntExist.data, "present".data,
    "absent".data, "available".data, "unavailable".data]

/-- Matchers packaged for `scanAll`. -/
def mBool (s : List Char) : Option (List Char × List Char) :=
  (tryAlts boolWords s).map (fun m => (m, m))

def scanDates (l : List Char) : List (Nat × List Char × List Char) :=
  scanAll matchDateFull l.length 0 l

def scanQuantities (l : List Char) : List (Nat × List Char × List Char × List Char) :=
  scanAll matchQuantity l.length 0 l

def scanNames (l : List Char) : List (Nat × List Char × List Char) :=
  scanAll matchName l.length 0 l

def scanBools (l : List Char) : List (Nat × List Char × List Char) :=
  scanAll mBool l.length 0 l

/-- Context window `substring(max(0, i - pad), i + len + pad)`. -/
def ctxWindow (l : List Char) (i len pad : Nat) : String :=
  ⟨subL l (i - pad) (i + len + pad)⟩

/-- `extractFacts(text)`: date, quantity, name and boolean facts, each with a
±20-character context window, in the order the source pushes them. -/
def extractFacts (text : String) : List Fact :=
  let l := text.data
  ((scanDates l).map (fun x =>
      { type := "date", value := ⟨x.2.2⟩, context := ctxWindow l x.1 x.2.2.length 20 : Fact })) ++
  ((scanQuantities l).map (fun x =>
      { type := "quantity", value := ⟨x.2.2.1⟩ ++ " " ++ ⟨x.2.2.2⟩,
        context := ctxWindow l x.1 x.2.1.length 20 : Fact })) ++
  ((scanNames l).map (fun x =>
      { type := "name", value := ⟨x.2.2⟩, context := ctxWindow l x.1 x.2.1.length 20 : Fact })) ++
  ((scanBools l).map (fun x =>
      { type := "boolean", value := ⟨x.2.2⟩, context := ctxWindow l x.1 x.2.2.length 20 : Fact }))

/-! ## Contradiction layers -/

/-- The boolean opposite map of `areFactsContradictory`. -/
def boolOpposites (v : String) : List String :=
  if v = "true" then ["false", "no", "incorrect", "wrong", "inaccurate"]
  else if v = "false" then ["true", "yes", "correct", "right", "accurate"]
  else if v = "yes" then ["no", "false", "incorrect", "wrong"]
  else if v = "no" then ["yes", "true", "correct", "right"]
  else if v = "exists" then [doesntExist, "absent", "unavailable"]
  else if v = doesntExist then ["exists", "present", "available"]
  else if v = "present" then ["absent", "unavailable", doesntExist]
  else if v = "absent" then ["present", "available", "exists"]
  else []

/-- `areFactsContradictory(fact1, fact2)`. -/
def areFactsContradictory (f1 f2 : Fact) : Bool :=
  if f1.type = "boolean" then
    let v1 := jsLowerS f1.value
    let v2 := jsLowerS f2.value
    (boolOpposites v1).contains v2 || (boolOpposites v2).contains v1
  else if f1.type = "date" || f1.type = "quantity" || f1.type = "name" then
    decide (f1.value ≠ f2.value)
  else false

/-- First-occurrence-ordered distinct keys (JS object key insertion order). -/
def uniqFirst : List String → List String
  | [] => []
  | k :: ks => k :: (uniqFirst ks).filter (fun x => x ≠ k)

/-- Wrap in double quotes (for the diagnostic strings the source builds). -/
def quoteS (s : String) : String := "\"" ++ s ++ "\""

/-- `findFactualContradictions(facts1, facts2)`: bucket by type, compare
every cross-text pair within a bucket. -/
def findFactualContradictions (facts1 facts2 : List Fact) : List String :=
  (uniqFirst (facts1.map (fun f => f.type))).flatMap (fun t =>
    if (facts2.filter (fun f => f.type = t)).isEmpty then []
    else
      (facts1.filter (fun f => f.type = t)).flatMap (fun f1 =>
        (facts2.filter (fun f => f.type = t)).filterMap (fun f2 =>
          if areFactsContradictory f1 f2 then
            some (t ++ ": " ++ quoteS f1.value ++ " vs " ++ quoteS f2.value)
          else none)))

/-- `don't click` (never matches normalized text; kept faithfully). -/
def dontClick : String := "don" ++ aposS ++ "t click"

/-- Action/opposite table of `areInstructionsContradictory`. -/
def actionOpposites : List (List String) :=
  [["click", dontClick, "avoid clicking"],
   ["select", "deselect", "unselect"],
   ["enable", "disable"],
   ["turn on", "turn off"],
   ["start", "stop"],
   ["begin", "end"],
   ["open", "close"],
   ["add", "remove", "delete"],
   ["include", "exclude"],
   ["allow", "prevent", "block"]]

/-- `areInstructionsContradictory(inst1, inst2)`. -/
def areInstructionsContradictory (inst1 inst2 : String) : Bool :=
  let n1 := (normalizeString inst1).data
  let n2 := (normalizeString inst2).data
  actionOpposites.any (fun grp =>
    match grp with
    | [] => false
    | pos :: negs =>
      let hasPos1 := containsSub n1 pos.data
      let hasNeg1 := negs.any (fun ng => containsSub n1 ng.data)
      let hasPos2 := containsSub n2 pos.data
      let hasNeg2 := negs.any (fun ng => containsSub n2 ng.data)
      (hasPos1 && hasNeg2) || (hasNeg1 && hasPos2))

/-- The step-marker regex `(?:step\s*\d+|first|second|third|then|next|finally|lastly)` with `/i`. -/
def mStep (s : List Char) : Option (List Char × Unit) :=
  let stepAlt :=
    if ciStartsWithL "step".data s then
      let r1 := s.drop 4
      let sp := r1.takeWhile (fun c => isJsSpace c)
      let d := takeDigits (r1.drop sp.length)
      if d.isEmpty then none else some (s.take 4 ++ sp ++ d)
    else none
  match stepAlt with
  | some m => some (m, ())
  | none =>
    (( ["first", "second", "third", "then", "next", "finally", "lastly"].map String.data
        |>.findSome? (fun w => if ciStartsWithL w s then some (s.take w.length) else none))).map
      (fun m => (m, ()))

def scanSteps (l : List Char) : List (Nat × List Char × Unit) :=
  scanAll mStep l.length 0 l

/-- `findProceduralContradictions(text1, text2)`: pair the i-th step marker
of each text, compare the ±(50,100) windows around them. -/
def findProceduralContradictions (text1 text2 : String) : List String :=
  let steps1 := scanSteps text1.data
  let steps2 := scanSteps text2.data
  if steps1.length > 0 && steps2.length > 0 then
    let instructions1 := steps1.map (fun x => jsSubstring text1 (x.1 - 50) (x.1 + 100))
    let instructions2 := steps2.map (fun x => jsSubstring text2 (x.1 - 50) (x.1 + 100))
    (List.range (min instructions1.length instructions2.length)).filterMap (fun i =>
      match instructions1.get? i, instructions2.get? i with
      | some a, some b =>
        if areInstructionsContradictory a b then
          some ("Step " ++ toString (i + 1) ++ ": Different instructions")
        else none
      | _, _ => none)
  else []

/-- `areContextsSimilar(context1, context2)`: word-set overlap above 30 %. -/
def areContextsSimilar (c1 c2 : String) : Bool :=
  let w1 := ((normalizeString c1).data.splitOn ' ').dedup
  let w2 := ((normalizeString c2).data.splitOn ' ').dedup
  let inter := w1.filter (fun x => w2.contains x)
  let uni := (w1 ++ w2).dedup
  decide (((inter.length : ℚ) / (uni.length : ℚ)) > 3 / 10)

/-- `findTemporalContradictions(text1, text2)`. -/
def findTemporalContradictions (text1 text2 : String) : List String :=
  let dates1 := scanDates text1.data
  let dates2 := scanDates text2.data
  if dates1.length > 0 && dates2.length > 0 then
    dates1.flatMap (fun x1 =>
      dates2.filterMap (fun x2 =>
        if x1.2.2 ≠ x2.2.2 then
          let c1 := jsSubstring text1 (x1.1 - 30) (x1.1 + x1.2.2.length + 30)
          let c2 := jsSubstring text2 (x2.1 - 30) (x2.1 + x2.2.2.length + 30)
          if areContextsSimilar c1 c2 then
            some ("Date: " ++ quoteS ⟨x1.2.2⟩ ++ " vs " ++ quoteS ⟨x2.2.2⟩ ++ " for same event")
          else none
        else none))
  else []

/-- `findQuantitativeContradictions(text1, text2)`. -/
def findQuantitativeContradictions (text1 text2 : String) : List String :=
  let nums1 := scanQuantities text1.data
  let nums2 := scanQuantities text2.data
  if nums1.length > 0 && nums2.length > 0 then
    nums1.flatMap (fun x1 =>
      nums2.filterMap (fun x2 =>
        if lowerL x1.2.2.2 = lowerL x2.2.2.2 && x1.2.2.1 ≠ x2.2.2.1 then
          let c1 := jsSubstring text1 (x1.1 - 30) (x1.1 + x1.2.1.length + 30)
          let c2 := jsSubstring text2 (x2.1 - 30) (x2.1 + x2.2.1.length + 30)
          if areContextsSimilar c1 c2 then
            some ("Quantity: " ++ quoteS ⟨x1.2.1⟩ ++ " vs " ++ quoteS ⟨x2.2.1⟩ ++
              " for same measurement")
          else none
        else none))
  else []

/-- `detectSemanticContradictions(text1, text2)`: normalize, short-circuit on
equality, then the fact-based, procedural, temporal and quantitative layers
in order. -/
def detectSemanticContradictions (text1 text2 : String) : Bool :=
  let normalized1 := normalizeString text1
  let normalized2 := normalizeString text2
  if normalized1 = normalized2 then false
  else
    let facts1 := extractFacts normalized1
    let facts2 := extractFacts normalized2
    if (findFactualContradictions facts1 facts2).length > 0 then true
    else if (findProceduralContradictions normalized1 normalized2).length > 0 then true
    else if (findTemporalContradictions normalized1 normalized2).length > 0 then true
    else if (findQuantitativeContradictions normalized1 normalized2).length > 0 then true
    else false

theorem simCore_formula (l1 l2 : List Char) (h : 0 < max l1.length l2.length) :
    simCore l1 l2 =
      (((max l1.length l2.length : Nat) : ℚ) - (lev l1 l2 : ℚ)) /
        ((max l1.length l2.length : Nat) : ℚ) := by
  unfold simCore
  by_cases h1 : l1.length = 0 <;> by_cases h2 : l2.length = 0
  · omega
  · have hnil : l1 = [] := List.length_eq_zero.mp h1
    rw [if_pos h1, if_neg h2, hnil, lev_nil_left]
    simp [h1]
  · have hnil : l2 = [] := List.length_eq_zero.mp h2
    rw [if_neg h1, if_pos h2, hnil, lev_nil_right]
    simp [h2]
  · rw [if_neg h1, if_neg h2]

/-! ## `extractTextContent`: HTML/markdown stripping

Each `.replace` of the source is implemented as a left-to-right scanner.
The fuel argument (instantiated with the input length) discharges
termination; every step consumes at least one input character. -/

/-- Characters a regex `.` does not match (line terminators). -/
def isDotExcluded (c : Char) : Bool :=
  c = '\n' || c = '\r' || c.val = 0x2028 || c.val = 0x2029

/-- `.replace(/<[^>]*>/g, "")`: drop from each `<` through the next `>`
(an unterminated `<` stays). -/
def stripTags : Nat → List Char → List Char
  | 0, l => l
  | _ + 1, [] => []
  | fuel + 1, c :: rest =>
    if c = '<' && rest.contains '>' then
      stripTags fuel ((rest.dropWhile (fun x => x ≠ '>')).drop 1)
    else c :: stripTags fuel rest

/-- Lazy search for the earliest `close` delimiter; the captured text may not
contain a line terminator unless `allowNl` (regex `.` vs `[\s\S]`). -/
def findClose (allowNl : Bool) (close : List Char) : List Char → Option (List Char × List Char)
  | [] => if close.isEmpty then some ([], []) else none
  | c :: rest =>
    if startsWithL close (c :: rest) then some ([], (c :: rest).drop close.length)
    else if !allowNl && isDotExcluded c then none
    else
      match findClose allowNl close rest with
      | some (cap, r) => some (c :: cap, r)
      | none => none

/-- `.replace(/opn(.*?)close/g, keepCap ? "$1" : "")`. -/
def replaceDelims (opn close : List Char) (allowNl keepCap : Bool) : Nat → List Char → List Char
  | 0, l => l
  | _ + 1, [] => []
  | fuel + 1, c :: rest =>
    if startsWithL opn (c :: rest) then
      match findClose allowNl close ((c :: rest).drop opn.length) with
      | some (cap, r) =>
        (if keepCap then cap else []) ++ replaceDelims opn close allowNl keepCap fuel r
      | none => c :: replaceDelims opn close allowNl keepCap fuel rest
    else c :: replaceDelims opn close allowNl keepCap fuel rest

/-- `.replace(/#{1,6}\s+/g, "")` (no anchor: matches anywhere). -/
def stripHeaders : Nat → List Char → List Char
  | 0, l => l
  | _ + 1, [] => []
  | fuel + 1, c :: rest =>
    if c = '#' then
      let hs := (c :: rest).takeWhile (fun x => x = '#')
      let rest2 := (c :: rest).drop hs.length
      if hs.length ≤ 6 && !(rest2.takeWhile (fun x => isJsSpace x)).isEmpty then
        stripHeaders fuel (rest2.dropWhile (fun x => isJsSpace x))
      else c :: stripHeaders fuel rest
    else c :: stripHeaders fuel rest

/-- Matcher for `\[([^\]]*)\]\([^)]*\)` at the head of the list; returns
(capture, rest after match). -/
def linkMatch (l : List Char) : Option (List Char × List Char) :=
  match l with
  | '[' :: r1 =>
    let cap := r1.takeWhile (fun x => x ≠ ']')
    match r1.drop cap.length with
    | ']' :: '(' :: r3 =>
      let url := r3.takeWhile (fun x => x ≠ ')')
      match r3.drop url.length with
      | ')' :: r5 => some (cap, r5)
      | _ => none
    | _ => none
  | _ => none

/-- `.replace(/\[([^\]]*)\]\([^)]*\)/g, "$1")`. -/
def replaceLinks : Nat → List Char → List Char
  | 0, l => l
  | _ + 1, [] => []
  | fuel + 1, c :: rest =>
    if c = '[' then
      match linkMatch (c :: rest) with
      | some (cap, r) => cap ++ replaceLinks fuel r
      | none => c :: replaceLinks fuel rest
    else c :: replaceLinks fuel rest

/-- `.replace(/!\[([^\]]*)\]\([^)]*\)/g, "$1")`. -/
def replaceImages : Nat → List Char → List Char
  | 0, l => l
  | _ + 1, [] => []
  | fuel + 1, c :: rest =>
    if c = '!' then
      match linkMatch rest with
      | some (cap, r) => cap ++ replaceImages fuel r
      | none => c :: replaceImages fuel rest
    else c :: replaceImages fuel rest

/-- `\s*marker\s+` after a (multiline) line start; returns the consumed
characters. -/
def lineMarkerMatch (marker : List Char → Option (List Char)) (l : List Char) :
    Option (List Char) :=
  let sp := l.takeWhile (fun x => isJsSpace x)
  let r1 := l.drop sp.length
  match marker r1 with
  | some mk =>
    let r2 := r1.drop mk.length
    let sp2 := r2.takeWhile (fun x => isJsSpace x)
    if sp2.isEmpty then none else some (sp ++ mk ++ sp2)
  | none => none

/-- `.replace(/^\s*marker\s+/gm, "")`: the `atStart` flag tracks multiline
`^` positions (string start or just after a line terminator). -/
def stripLineMarkers (marker : List Char → Option (List Char)) :
    Nat → Bool → List Char → List Char
  | 0, _, l => l
  | _ + 1, _, [] => []
  | fuel + 1, atStart, c :: rest =>
    if atStart then
      match lineMarkerMatch marker (c :: rest) with
      | some consumed =>
        stripLineMarkers marker fuel
          (match consumed.getLast? with
            | some x => isDotExcluded x
            | none => false)
          ((c :: rest).drop consumed.length)
      | none => c :: stripLineMarkers marker fuel (isDotExcluded c) rest
    else c :: stripLineMarkers marker fuel (isDotExcluded c) rest

/-- `[-*+]` marker. -/
def listMarker : List Char → Option (List Char)
  | c :: _ => if c = '-' || c = '*' || c = '+' then some [c] else none
  | [] => none

/-- `\d+\.` marker. -/
def numMarker (l : List Char) : Option (List Char) :=
  let d := takeDigits l
  if d.isEmpty then none
  else
    match l.drop d.length with
    | '.' :: _ => some (d ++ ['.'])
    | _ => none

/-- `>` marker. -/
def bqMarker : List Char → Option (List Char)
  | c :: _ => if c = '>' then some [c] else none
  | [] => none

/-- The horizontal-rule replace (regex: three or more dashes, greedy):
delete every maximal run of three or more dashes. -/
def stripDashes : Nat → List Char → List Char
  | 0, l => l
  | _ + 1, [] => []
  | fuel + 1, c :: rest =>
    if c = '-' then
      let ds := (c :: rest).takeWhile (fun x => x = '-')
      if 3 ≤ ds.length then stripDashes fuel ((c :: rest).drop ds.length)
      else c :: stripDashes fuel rest
    else c :: stripDashes fuel rest

/-- `.replace(/\n{3,}/g, "\n\n")`. -/
def collapseNewlines : Nat → List Char → List Char
  | 0, l => l
  | _ + 1, [] => []
  | fuel + 1, c :: rest =>
    if c = '\n' then
      let ns := (c :: rest).takeWhile (fun x => x = '\n')
      if 3 ≤ ns.length then '\n' :: '\n' :: collapseNewlines fuel ((c :: rest).drop ns.length)
      else ns ++ collapseNewlines fuel ((c :: rest).drop ns.length)
    else c :: collapseNewlines fuel rest

/-- The HTML-tag plus markdown stripping pipeline of `extractTextContent`,
in source order, ending with `.trim()`. -/
def mdStrip (s : String) : String :=
  let tick : Char := Char.ofNat 96
  let l0 := s.data
  let l1 := stripTags l0.length l0
  let l2 := replaceDelims "**".data "**".data false true l1.length l1
  let l3 := replaceDelims "*".data "*".data false true l2.length l2
  let l4 := replaceDelims "__".data "__".data false true l3.length l3
  let l5 := replaceDelims "_".data "_".data false true l4.length l4
  let l6 := replaceDelims [tick] [tick] false true l5.length l5
  let l7 := replaceDelims [tick, tick, tick] [tick, tick, tick] true false l6.length l6
  let l8 := stripHeaders l7.length l7
  let l9 := replaceLinks l8.length l8
  let l10 := replaceImages l9.length l9
  let l11 := stripLineMarkers listMarker l10.length true l10
  let l12 := stripLineMarkers numMarker l11.length true l11
  let l13 := stripLineMarkers bqMarker l12.length true l12
  let l14 := stripDashes l13.length l13
  let l15 := collapseNewlines l14.length l14
  ⟨trimL l15⟩

/-! ## Data model -/

/-- Value of a rich-text field: a plain string or a `{markdown, html}`
wrapper object. -/
inductive JsVal where
  | str : String → JsVal
  | obj : Option String → Option String → JsVal
  deriving DecidableEq, Repr

/-- JS truthiness of a rich-text field. -/
def truthyJ : Option JsVal → Bool
  | none => false
  | some (JsVal.str s) => decide (s ≠ "")
  | some (JsVal.obj _ _) => true

/-- `JSON.stringify` of the `{markdown, html}` wrapper (only reached when
both sub-fields are falsy; `undefined` fields are omitted). -/
def jsonStringify (md html : Option String) : String :=
  let fs :=
    (match md with | some m => ["\x22markdown\x22:" ++ quoteS m] | none => []) ++
    (match html with | some h => ["\x22html\x22:" ++ quoteS h] | none => [])
  "\x7b" ++ String.intercalate "," fs ++ "\x7d"

/-- `extractTextContent(content)` from the source. -/
def extractTextContent (content : Option JsVal) : String :=
  match content with
  | none => ""
  | some (JsVal.str s) => if s = "" then "" else mdStrip s
  | some (JsVal.obj md html) =>
    if truthyS md then mdStrip (optStr md)
    else if truthyS html then mdStrip (optStr html)
    else mdStrip (jsonStringify md html)

/-- The `meta` sub-object (only the fields the engine reads). -/
structure Meta where
  id : Option String := none
  entityType : Option String := none
  deriving DecidableEq, Repr

/-- A knowledge-base record (`YextEntity`), with every field the detection
engine reads; absent fields are `none` (`undefined`). -/
structure YextEntity where
  id : Option String := none
  name : Option String := none
  description : Option String := none
  content : Option String := none
  answer : Option String := none
  mainPhone : Option String := none
  websiteUrl : Option String := none
  body : Option JsVal := none
  bodyV2 : Option JsVal := none
  richTextDescription : Option JsVal := none
  richText : Option JsVal := none
  meta : Option Meta := none
  deriving DecidableEq, Repr

/-- Severity levels (the three string literals of the source type). -/
inductive Severity where
  | high
  | medium
  | low
  deriving DecidableEq, Repr

/-- One `{entityId, entityName, value}` entry of a ConflictDetail. -/
structure ValueEntry where
  entityId : Option String
  entityName : Option String
  value : String
  deriving DecidableEq, Repr

structure ConflictDetail where
  field : String
  values : List ValueEntry
  conflictType : String
  severity : Severity
  description : String
  deriving DecidableEq, Repr

/-- One `{id, name, type}` entry of a ConflictGroup. -/
structure EntityRef where
  id : Option String
  name : Option String
  type : Option String
  deriving DecidableEq, Repr

structure ConflictGroup where
  id : String
  title : String
  entities : List EntityRef
  conflictDetails : List ConflictDetail
  severity : Severity
  deriving DecidableEq, Repr

/-! ## `detectConflicts` -/

def entityTypeOf (e : YextEntity) : Option String := e.meta.bind (fun m => m.entityType)

def metaIdOf (e : YextEntity) : Option String := e.meta.bind (fun m => m.id)

/-- `entity.meta?.id || entity.id || "unknown"`. -/
def idOf (e : YextEntity) : String := jsOr (optStr (metaIdOf e)) (jsOr (optStr e.id) "unknown")

/-- `entity.name || "Unknown Entity"`. -/
def displayName (e : YextEntity) : String := jsOr (optStr e.name) "Unknown Entity"

/-- A template literal `${entity.name}` renders `undefined` for an absent
name. -/
def tmplName (o : Option String) : String := o.getD "undefined"

def isFaqType (e : YextEntity) : Bool :=
  entityTypeOf e = some "faq" || entityTypeOf e = some "ce_faq"

/-- Entity types excluded from the pairwise phase. -/
def excludedType (e : YextEntity) : Bool :=
  isFaqType e || entityTypeOf e = some "location" || entityTypeOf e = some "ce_location" ||
    entityTypeOf e = some "bufo" || entityTypeOf e = some "ce_bufo"

def isBookType (e : YextEntity) : Bool :=
  entityTypeOf e = some "book" || entityTypeOf e = some "ce_book"

/-- `entity.meta?.entityType || "unknown"` (the pairwise bucket key). -/
def bucketKey (e : YextEntity) : String := jsOr (optStr (entityTypeOf e)) "unknown"

/-- `normalizeString(faq.name || "")` (the FAQ question key). -/
def nameKey (e : YextEntity) : String := normalizeString (optStr e.name)

/-- `normalizeString(faq.answer || faq.description || "")`. -/
def normAnswer (e : YextEntity) : String :=
  normalizeString (jsOr (optStr e.answer) (optStr e.description))

/-- `faq.answer || faq.description || ""` (untruncated raw answer). -/
def rawAnswer (e : YextEntity) : String := jsOr (optStr e.answer) (optStr e.description)

/-- Insertion-ordered grouping, as a JS `Map` built by pushing each element
onto the list of its key: keys in first-occurrence order, each bucket keeps
input order. -/
def groupByKey {α : Type} (key : α → String) (es : List α) : List (String × List α) :=
  (uniqFirst (es.map key)).map (fun k => (k, es.filter (fun e => key e = k)))

/-- `s.substring(0, 100) + "..."`. -/
def truncate100 (s : String) : String := ⟨s.data.take 100⟩ ++ "..."

def mkEntityRef (e : YextEntity) : EntityRef :=
  { id := some (idOf e), name := some (displayName e), type := entityTypeOf e }

/-- The single ConflictDetail of a FAQ conflict group. -/
def mkFaqDetail (faqs : List YextEntity) : ConflictDetail :=
  { field := "answer"
    values := faqs.map (fun f =>
      { entityId := some (idOf f), entityName := some (displayName f)
        value := truncate100 (rawAnswer f) })
    conflictType := "faq_answer_conflict"
    severity := Severity.high
    description :=
      toString faqs.length ++ " FAQ entities with identical questions have different answers" }

def mkFaqGroup (question : String) (faqs : List YextEntity) : ConflictGroup :=
  let ds := [mkFaqDetail faqs]
  { id := "faq-conflict-" ++ question
    title := "FAQ Conflict: " ++ quoteS question
    entities := faqs.map mkEntityRef
    conflictDetails := ds
    severity :=
      if ds.any (fun c => c.severity = Severity.high) then Severity.high else Severity.medium }

/-- FAQ phase: group FAQ-typed records by normalized question; a group with
two or more members and more than one distinct normalized answer yields one
group. -/
def faqGroupOpt (qg : String × List YextEntity) : Option ConflictGroup :=
  if 1 < qg.2.length ∧ 1 < ((qg.2.map normAnswer).dedup).length then
    some (mkFaqGroup qg.1 qg.2)
  else none

def faqConflicts (entities : List YextEntity) : List ConflictGroup :=
  (groupByKey nameKey (entities.filter (fun e => isFaqType e))).filterMap faqGroupOpt

/-- Category-aware best-available text field selection (book entities
prioritize `bodyV2`; others use description → content → body → rich
fields). -/
def contentFor (e : YextEntity) : String :=
  if isBookType e then
    let bodyV2Text := if truthyJ e.bodyV2 then extractTextContent e.bodyV2 else ""
    let bodyText := if truthyJ e.body then extractTextContent e.body else ""
    let descriptionText := optStr e.description
    let contentText := optStr e.content
    let richTextDescriptionText :=
      if truthyJ e.richTextDescription then extractTextContent e.richTextDescription else ""
    let richTextText := if truthyJ e.richText then extractTextContent e.richText else ""
    jsOr bodyV2Text (jsOr bodyText (jsOr descriptionText (jsOr contentText
      (jsOr richTextDescriptionText (jsOr richTextText "")))))
  else
    let descriptionText := optStr e.description
    let contentText := optStr e.content
    let bodyText := match e.body with | some (JsVal.str s) => s | _ => ""
    let bodyV2Text := if truthyJ e.bodyV2 then extractTextContent e.bodyV2 else ""
    let richTextDescriptionText :=
      if truthyJ e.richTextDescription then extractTextContent e.richTextDescription else ""
    let richTextText := if truthyJ e.richText then extractTextContent e.richText else ""
    jsOr descriptionText (jsOr contentText (jsOr bodyText (jsOr bodyV2Text
      (jsOr richTextDescriptionText (jsOr richTextText "")))))

/-- Which field family carries the content conflict, and the conflictType
reported for it. -/
def contentFieldAndType (e1 e2 : YextEntity) (contradiction : Bool) : String × String :=
  if truthyJ e1.body && truthyJ e2.body then
    ("body", if contradiction then "body_content_contradiction" else "body_content_conflict")
  else if truthyS e1.content && truthyS e2.content then
    ("content", if contradiction then "content_contradiction" else "content_conflict")
  else if truthyS e1.description && truthyS e2.description then
    ("description",
      if contradiction then "description_contradiction" else "description_conflict")
  else ("content", "inconsistent_data")

/-- `Math.round` (half away from zero is half-up here: arguments are
non-negative). -/
def jsRound (q : ℚ) : Int := (q + 1 / 2).floor

/-- `Math.round(nameSimilarity * 100)` rendered for descriptions. -/
def pctStr (q : ℚ) : String := toString (jsRound (q * 100))

def mkValuePair (e1 e2 : YextEntity) (v1 v2 : String) : List ValueEntry :=
  [{ entityId := some (idOf e1), entityName := some (displayName e1), value := v1 },
   { entityId := some (idOf e2), entityName := some (displayName e2), value := v2 }]

/-- The content-comparison branch for one pair: runs when name similarity
exceeds 0.3 and both selected texts are non-empty; a contradiction is a
high-severity detail, a mere difference a medium one. -/
def contentDetail (entityType : String) (e1 e2 : YextEntity) : Option ConflictDetail :=
  let nameSimilarity :=
    calculateSimilarity (normalizeString (optStr e1.name)) (normalizeString (optStr e2.name))
  if nameSimilarity > 3 / 10 then
    let content1 := contentFor e1
    let content2 := contentFor e2
    if content1 ≠ "" ∧ content2 ≠ "" then
      let isDifferent := normalizeString content1 ≠ normalizeString content2
      let hasContradiction := detectSemanticContradictions content1 content2
      if isDifferent ∧ hasContradiction then
        let ft := contentFieldAndType e1 e2 true
        some { field := ft.1
               values := mkValuePair e1 e2 (truncate100 content1) (truncate100 content2)
               conflictType := ft.2
               severity := Severity.high
               description := entityType ++ " entities with similar names (" ++
                 pctStr nameSimilarity ++ "% similar) have contradictory " ++ ft.1 ++ " content" }
      else if isDifferent then
        let ft := contentFieldAndType e1 e2 false
        some { field := ft.1
               values := mkValuePair e1 e2 (truncate100 content1) (truncate100 content2)
               conflictType := ft.2
               severity := Severity.medium
               description := entityType ++ " entities with similar names (" ++
                 pctStr nameSimilarity ++ "% similar) have different " ++ ft.1 ++ " content" }
      else none
    else none
  else none

/-- The phone check: both phones truthy, identical digit strings, different
display names. -/
def phoneDetail (e1 e2 : YextEntity) : Option ConflictDetail :=
  if truthyS e1.mainPhone && truthyS e2.mainPhone then
    if normalizePhone (optStr e1.mainPhone) = normalizePhone (optStr e2.mainPhone) ∧
        e1.name ≠ e2.name then
      some { field := "mainPhone"
             values := mkValuePair e1 e2 (optStr e1.mainPhone) (optStr e2.mainPhone)
             conflictType := "phone_mismatch"
             severity := Severity.medium
             description := "Different entities sharing the same phone number" }
    else none
  else none

/-- The website check: both URLs truthy and identical, different display
names. -/
def urlDetail (e1 e2 : YextEntity) : Option ConflictDetail :=
  if truthyS e1.websiteUrl && truthyS e2.websiteUrl &&
      decide (optStr e1.websiteUrl = optStr e2.websiteUrl) && decide (e1.name ≠ e2.name) then
    some { field := "websiteUrl"
           values := mkValuePair e1 e2 (optStr e1.websiteUrl) (optStr e2.websiteUrl)
           conflictType := "url_mismatch"
           severity := Severity.medium
           description := "Different entities sharing the same website URL" }
  else none

/-- All ConflictDetails accumulated for one pair, in push order. -/
def pairDetails (entityType : String) (e1 e2 : YextEntity) : List ConflictDetail :=
  (contentDetail entityType e1 e2).toList ++ (phoneDetail e1 e2).toList ++
    (urlDetail e1 e2).toList

/-- `some high ? high : some medium ? medium : low`. -/
def jsSeverity3 (ds : List ConflictDetail) : Severity :=
  if ds.any (fun c => c.severity = Severity.high) then Severity.high
  else if ds.any (fun c => c.severity = Severity.medium) then Severity.medium
  else Severity.low

/-- A pair with at least one detail becomes one group. -/
def mkPairGroup (entityType : String) (e1 e2 : YextEntity) : Option ConflictGroup :=
  let ds := pairDetails entityType e1 e2
  if ds.isEmpty then none
  else some
    { id := "conflict-" ++ tmplName e1.name ++ "-" ++ tmplName e2.name
      title := "Potential conflict between " ++ quoteS (tmplName e1.name) ++ " and " ++
        quoteS (tmplName e2.name)
      entities := [mkEntityRef e1, mkEntityRef e2]
      conflictDetails := ds
      severity := jsSeverity3 ds }

/-- Every unordered pair `i < j`, in loop order. -/
def allPairs {α : Type} : List α → List (α × α)
  | [] => []
  | x :: xs => xs.map (fun y => (x, y)) ++ allPairs xs

/-- Pairwise phase: non-excluded records bucketed by entity type, every pair
within a bucket compared. -/
def pairwiseConflicts (entities : List YextEntity) : List ConflictGroup :=
  let nonFaq := entities.filter (fun e => !excludedType e)
  (groupByKey bucketKey nonFaq).flatMap (fun tg =>
    (allPairs tg.2).filterMap (fun p => mkPairGroup tg.1 p.1 p.2))

/-- `detectConflicts(entities)`: FAQ conflicts first, then per-category
pairwise conflicts. -/
def detectConflicts (entities : List YextEntity) : List ConflictGroup :=
  faqConflicts entities ++ pairwiseConflicts entities

/-- `getConflictSummary(conflicts)`. -/
structure Summary where
  totalConflicts : Nat
  highSeverity : Nat
  mediumSeverity : Nat
  lowSeverity : Nat
  affectedEntities : Nat
  deriving DecidableEq, Repr

def getConflictSummary (conflicts : List ConflictGroup) : Summary :=
  { totalConflicts := conflicts.length
    highSeverity := (conflicts.filter (fun c => c.severity = Severity.high)).length
    mediumSeverity := (conflicts.filter (fun c => c.severity = Severity.medium)).length
    lowSeverity := (conflicts.filter (fun c => c.severity = Severity.low)).length
    affectedEntities :=
      ((conflicts.flatMap (fun c => c.entities)).filterMap (fun en =>
        match en.id with
        | some s => if s ≠ "" then some s else none
        | none => none)).dedup.length }

/-! ## Structural lemmas about the engine -/

theorem data_append (a b : String) : (a ++ b).data = a.data ++ b.data := rfl

theorem string_eq_of_data_eq {a b : String} (h : a.data = b.data) : a = b := by
  cases a
  cases b
  exact congrArg String.mk h

theorem string_append_left_cancel {a b c : String} (h : a ++ b = a ++ c) : b = c := by
  have hd := congrArg String.data h
  rw [data_append, data_append] at hd
  exact string_eq_of_data_eq (List.append_cancel_left hd)

theorem one_lt_length_of_two_mem {α : Type} {a b : α} {l : List α}
    (ha : a ∈ l) (hb : b ∈ l) (hne : a ≠ b) : 1 < l.length := by
  match l, ha with
  | [x], ha =>
    have hax : a = x := by simpa using ha
    have hbx : b = x := by simpa using hb
    exact absurd (hax.trans hbx.symm) hne
  | x :: y :: rest, _ => simp
  | [], ha => simp at ha

theorem mem_uniqFirst {k : String} : ∀ {l : List String}, k ∈ uniqFirst l ↔ k ∈ l := by
  intro l
  induction l with
  | nil => simp [uniqFirst]
  | cons x xs ih =>
    simp only [uniqFirst, List.mem_cons]
    constructor
    · intro h
      rcases h with h | h
      · exact Or.inl h
      · exact Or.inr (ih.mp (List.mem_of_mem_filter h))
    · intro h
      rcases h with h | h
      · exact Or.inl h
      · by_cases hk : k = x
        · exact Or.inl hk
        · exact Or.inr (List.mem_filter.mpr ⟨ih.mpr h, by simpa using hk⟩)

theorem nodup_uniqFirst : ∀ (l : List String), (uniqFirst l).Nodup := by
  intro l
  induction l with
  | nil => simp [uniqFirst]
  | cons x xs ih =>
    simp only [uniqFirst]
    refine List.Nodup.cons ?_ (List.Nodup.filter _ ih)
    intro hx
    have := List.of_mem_filter hx
    simp at this

theorem groupByKey_keys {α : Type} (key : α → String) (es : List α) :
    (groupByKey key es).map Prod.fst = uniqFirst (es.map key) := by
  unfold groupByKey
  rw [List.map_map]
  have : ∀ (l : List String), l.map (Prod.fst ∘ fun k => (k, es.filter (fun e => key e = k))) = l := by
    intro l
    induction l with
    | nil => rfl
    | cons x xs ih => simp only [List.map_cons, ih, Function.comp]
  exact this _

theorem mem_groupByKey_self {α : Type} (key : α → String) (es : List α) (e : α) (he : e ∈ es) :
    (key e, es.filter (fun x => key x = key e)) ∈ groupByKey key es := by
  unfold groupByKey
  apply List.mem_map.mpr
  exact ⟨key e, mem_uniqFirst.mpr (List.mem_map.mpr ⟨e, he, rfl⟩), rfl⟩

theorem mem_groupByKey_elim {α : Type} {key : α → String} {es : List α}
    {kg : String × List α} (h : kg ∈ groupByKey key es) :
    kg.2 = es.filter (fun x => key x = kg.1) := by
  unfold groupByKey at h
  obtain ⟨k, _, hk⟩ := List.mem_map.mp h
  rw [← hk]

theorem pair_mem_allPairs {α : Type} {a b : α} :
    ∀ {l : List α}, a ∈ l → b ∈ l → a ≠ b →
      (a, b) ∈ allPairs l ∨ (b, a) ∈ allPairs l := by
  intro l
  induction l with
  | nil => intro ha; simp at ha
  | cons x xs ih =>
    intro ha hb hne
    rcases List.mem_cons.mp ha with hax | hax
    · have hbx : b ∈ xs := by
        rcases List.mem_cons.mp hb with h | h
        · exact absurd (hax.trans h.symm) hne
        · exact h
      exact Or.inl (by
        simp only [allPairs, List.mem_append]
        exact Or.inl (List.mem_map.mpr ⟨b, hbx, by rw [hax]⟩))
    · rcases List.mem_cons.mp hb with hbx | hbx
      · exact Or.inr (by
          simp only [allPairs, List.mem_append]
          exact Or.inl (List.mem_map.mpr ⟨a, hax, by rw [hbx]⟩))
      · rcases ih hax hbx hne with h | h
        · exact Or.inl (by simp only [allPairs, List.mem_append]; exact Or.inr h)
        · exact Or.inr (by simp only [allPairs, List.mem_append]; exact Or.inr h)

/-- Rank of a severity under the order high > medium > low. -/
def sevRank : Severity → Nat
  | Severity.high => 2
  | Severity.medium => 1
  | Severity.low => 0

theorem sevRank_le_two (s : Severity) : sevRank s ≤ 2 := by cases s <;> simp [sevRank]

/-- The pairwise severity roll-up is the maximum severity present among a
non-empty detail list. -/
theorem jsSeverity3_spec (ds : List ConflictDetail) (h : ds ≠ []) :
    jsSeverity3 ds ∈ ds.map (fun d => d.severity) ∧
      ∀ d ∈ ds, sevRank d.severity ≤ sevRank (jsSeverity3 ds) := by
  unfold jsSeverity3
  by_cases hhigh : ds.any (fun c => c.severity = Severity.high) = true
  · rw [if_pos hhigh]
    obtain ⟨d, hd, hds⟩ := List.any_eq_true.mp hhigh
    constructor
    · exact List.mem_map.mpr ⟨d, hd, of_decide_eq_true hds⟩
    · intro d' _
      calc sevRank d'.severity ≤ 2 := sevRank_le_two _
        _ = sevRank Severity.high := rfl
  · rw [if_neg hhigh]
    have hnotHigh : ∀ d ∈ ds, d.severity ≠ Severity.high := by
      intro d hd hcon
      exact hhigh (List.any_eq_true.mpr ⟨d, hd, by simp [hcon]⟩)
    by_cases hmed : ds.any (fun c => c.severity = Severity.medium) = true
    · rw [if_pos hmed]
      obtain ⟨d, hd, hds⟩ := List.any_eq_true.mp hmed
      constructor
      · exact List.mem_map.mpr ⟨d, hd, of_decide_eq_true hds⟩
      · intro d' hd'
        have : d'.severity ≠ Severity.high := hnotHigh d' hd'
        cases hs : d'.severity
        · exact absurd hs this
        · simp [sevRank]
        · simp [sevRank]
    · rw [if_neg hmed]
      have hnotMed : ∀ d ∈ ds, d.severity ≠ Severity.medium := by
        intro d hd hcon
        exact hmed (List.any_eq_true.mpr ⟨d, hd, by simp [hcon]⟩)
      have hlow : ∀ d ∈ ds, d.severity = Severity.low := by
        intro d hd
        cases hs : d.severity
        · exact absurd hs (hnotHigh d hd)
        · exact absurd hs (hnotMed d hd)
        · rfl
      match ds, h with
      | d :: rest, _ =>
        constructor
        · exact List.mem_map.mpr ⟨d, by simp, hlow d (by simp)⟩
        · intro d' hd'
          rw [hlow d' hd']

theorem mkPairGroup_some {t : String} {e1 e2 : YextEntity} {g : ConflictGroup}
    (h : mkPairGroup t e1 e2 = some g) :
    pairDetails t e1 e2 ≠ [] ∧
    g.conflictDetails = pairDetails t e1 e2 ∧
    g.entities = [mkEntityRef e1, mkEntityRef e2] ∧
    g.severity = jsSeverity3 (pairDetails t e1 e2) ∧
    g.id = "conflict-" ++ tmplName e1.name ++ "-" ++ tmplName e2.name := by
  unfold mkPairGroup at h
  by_cases hds : (pairDetails t e1 e2).isEmpty = true
  · rw [if_pos hds] at h
    cases h
  · rw [if_neg hds] at h
    have hg := (Option.some.inj h).symm
    subst hg
    refine ⟨?_, rfl, rfl, rfl, rfl⟩
    intro hnil
    exact hds (by rw [hnil]; rfl)

theorem mkPairGroup_eq_some_of_ne {t : String} {e1 e2 : YextEntity}
    (h : pairDetails t e1 e2 ≠ []) :
    mkPairGroup t e1 e2 = some
      { id := "conflict-" ++ tmplName e1.name ++ "-" ++ tmplName e2.name
        title := "Potential conflict between " ++ quoteS (tmplName e1.name) ++ " and " ++
          quoteS (tmplName e2.name)
        entities := [mkEntityRef e1, mkEntityRef e2]
        conflictDetails := pairDetails t e1 e2
        severity := jsSeverity3 (pairDetails t e1 e2) } := by
  unfold mkPairGroup
  rw [if_neg (by simpa [List.isEmpty_iff] using h)]

theorem mem_pairwise_intro {es : List YextEntity} {t : String} {grp : List YextEntity}
    {e1 e2 : YextEntity} {g : ConflictGroup}
    (hb : (t, grp) ∈ groupByKey bucketKey (es.filter (fun e => !excludedType e)))
    (hp : (e1, e2) ∈ allPairs grp) (hmk : mkPairGroup t e1 e2 = some g) :
    g ∈ pairwiseConflicts es := by
  unfold pairwiseConflicts
  exact List.mem_flatMap.mpr ⟨(t, grp), hb, List.mem_filterMap.mpr ⟨(e1, e2), hp, hmk⟩⟩

theorem mem_pairwise_elim {es : List YextEntity} {g : ConflictGroup}
    (h : g ∈ pairwiseConflicts es) :
    ∃ t grp e1 e2, (t, grp) ∈ groupByKey bucketKey (es.filter (fun e => !excludedType e)) ∧
      (e1, e2) ∈ allPairs grp ∧ mkPairGroup t e1 e2 = some g := by
  unfold pairwiseConflicts at h
  obtain ⟨tg, htg, hg⟩ := List.mem_flatMap.mp h
  obtain ⟨p, hp, hmk⟩ := List.mem_filterMap.mp hg
  exact ⟨tg.1, tg.2, p.1, p.2, htg, hp, hmk⟩

theorem mem_faq_elim {es : List YextEntity} {g : ConflictGroup}
    (h : g ∈ faqConflicts es) :
    ∃ q mems, (q, mems) ∈ groupByKey nameKey (es.filter (fun e => isFaqType e)) ∧
      (1 < mems.length ∧ 1 < ((mems.map normAnswer).dedup).length) ∧
      g = mkFaqGroup q mems := by
  unfold faqConflicts at h
  obtain ⟨qg, hqg, hmk⟩ := List.mem_filterMap.mp h
  unfold faqGroupOpt at hmk
  by_cases hc : 1 < qg.2.length ∧ 1 < ((qg.2.map normAnswer).dedup).length
  · rw [if_pos hc] at hmk
    exact ⟨qg.1, qg.2, hqg, hc, (Option.some.inj hmk).symm⟩
  · rw [if_neg hc] at hmk
    cases hmk

theorem pairwise_id_shape {es : List YextEntity} {g : ConflictGroup}
    (h : g ∈ pairwiseConflicts es) :
    ∃ n1 n2, g.id = "conflict-" ++ n1 ++ "-" ++ n2 := by
  obtain ⟨t, grp, e1, e2, _, _, hmk⟩ := mem_pairwise_elim h
  exact ⟨tmplName e1.name, tmplName e2.name, (mkPairGroup_some hmk).2.2.2.2⟩

theorem conflict_id_ne_faq_id (n1 n2 q : String) :
    ("conflict-" ++ n1 ++ "-" ++ n2) ≠ ("faq-conflict-" ++ q) := by
  intro h
  have h2 : some 'c' = some 'f' := congrArg (fun s => s.data.head?) h
  exact absurd (Option.some.inj h2) (by decide)

/-- If two entities of the same non-excluded bucket both occur in the input
and some ConflictDetail with property `P` arises for the pair in either
orientation, then `detectConflicts` reports a group holding such a detail. -/
theorem exists_pair_detail (es : List YextEntity) (e1 e2 : YextEntity)
    (P : ConflictDetail → Prop)
    (h1 : e1 ∈ es) (h2 : e2 ∈ es) (hne : e1 ≠ e2)
    (hx1 : excludedType e1 = false) (hx2 : excludedType e2 = false)
    (hkey : bucketKey e1 = bucketKey e2)
    (h12 : ∃ d ∈ pairDetails (bucketKey e1) e1 e2, P d)
    (h21 : ∃ d ∈ pairDetails (bucketKey e1) e2 e1, P d) :
    ∃ g ∈ detectConflicts es, ∃ d ∈ g.conflictDetails, P d := by
  have hn1 : e1 ∈ es.filter (fun e => !excludedType e) :=
    List.mem_filter.mpr ⟨h1, by simp [hx1]⟩
  have hn2 : e2 ∈ es.filter (fun e => !excludedType e) :=
    List.mem_filter.mpr ⟨h2, by simp [hx2]⟩
  set nonFaq := es.filter (fun e => !excludedType e) with hnf
  have hbucket : (bucketKey e1, nonFaq.filter (fun x => bucketKey x = bucketKey e1)) ∈
      groupByKey bucketKey nonFaq := mem_groupByKey_self bucketKey nonFaq e1 hn1
  have hg1 : e1 ∈ nonFaq.filter (fun x => bucketKey x = bucketKey e1) :=
    List.mem_filter.mpr ⟨hn1, by simp⟩
  have hg2 : e2 ∈ nonFaq.filter (fun x => bucketKey x = bucketKey e1) :=
    List.mem_filter.mpr ⟨hn2, by simp [hkey]⟩
  have hpair := pair_mem_allPairs hg1 hg2 hne
  rcases hpair with hp | hp
  · obtain ⟨d, hd, hPd⟩ := h12
    have hds : pairDetails (bucketKey e1) e1 e2 ≠ [] := by
      intro hnil; rw [hnil] at hd; simp at hd
    obtain ⟨g0, hmk⟩ : ∃ g, mkPairGroup (bucketKey e1) e1 e2 = some g :=
      ⟨_, mkPairGroup_eq_some_of_ne (t := bucketKey e1) hds⟩
    refine ⟨g0, ?_, ?_⟩
    · apply List.mem_append_right
      exact mem_pairwise_intro hbucket hp hmk
    · rw [(mkPairGroup_some hmk).2.1]
      exact ⟨d, hd, hPd⟩
  · obtain ⟨d, hd, hPd⟩ := h21
    have hds : pairDetails (bucketKey e1) e2 e1 ≠ [] := by
      intro hnil; rw [hnil] at hd; simp at hd
    obtain ⟨g0, hmk⟩ : ∃ g, mkPairGroup (bucketKey e1) e2 e1 = some g :=
      ⟨_, mkPairGroup_eq_some_of_ne (t := bucketKey e1) hds⟩
    refine ⟨g0, ?_, ?_⟩
    · apply List.mem_append_right
      exact mem_pairwise_intro hbucket hp hmk
    · rw [(mkPairGroup_some hmk).2.1]
      exact ⟨d, hd, hPd⟩

theorem faqGroupOpt_some {qg : String × List YextEntity} {g : ConflictGroup}
    (h : faqGroupOpt qg = some g) : g = mkFaqGroup qg.1 qg.2 := by
  unfold faqGroupOpt at h
  by_cases hc : 1 < qg.2.length ∧ 1 < ((qg.2.map normAnswer).dedup).length
  · rw [if_pos hc] at h
    exact (Option.some.inj h).symm
  · rw [if_neg hc] at h
    cases h

theorem mkFaqGroup_id (q : String) (mems : List YextEntity) :
    (mkFaqGroup q mems).id = "faq-conflict-" ++ q := rfl

theorem faq_aux (q : String) (mems : List YextEntity) :
    ∀ (L : List (String × List YextEntity)),
      (L.map Prod.fst).Nodup → (q, mems) ∈ L →
      faqGroupOpt (q, mems) = some (mkFaqGroup q mems) →
      (L.filterMap faqGroupOpt).filter (fun g => g.id = "faq-conflict-" ++ q) =
        [mkFaqGroup q mems] := by
  intro L
  induction L with
  | nil => intro _ hm; simp at hm
  | cons x rest ih =>
    intro hnd hm hopt
    have hnd2 := List.nodup_cons.mp hnd
    by_cases hx : x = (q, mems)
    · subst hx
      rw [List.filterMap_cons_some hopt]
      have hid : decide ((mkFaqGroup q mems).id = "faq-conflict-" ++ q) = true := by
        simp [mkFaqGroup_id]
      rw [List.filter_cons_of_pos (by simpa using hid)]
      have hrest : (rest.filterMap faqGroupOpt).filter
          (fun g => g.id = "faq-conflict-" ++ q) = [] := by
        apply List.filter_eq_nil_iff.mpr
        intro g hg
        obtain ⟨qg2, hqg2, hsome⟩ := List.mem_filterMap.mp hg
        have hgid : g.id = "faq-conflict-" ++ qg2.1 := by
          rw [faqGroupOpt_some hsome, mkFaqGroup_id]
        simp only [decide_eq_true_eq]
        rw [hgid]
        intro heq
        have : qg2.1 = q := string_append_left_cancel heq
        apply hnd2.1
        rw [show (q, mems).1 = qg2.1 from this.symm]
        exact List.mem_map.mpr ⟨qg2, hqg2, rfl⟩
      rw [hrest]
    · have hmem2 : (q, mems) ∈ rest := by
        rcases List.mem_cons.mp hm with h | h
        · exact absurd h.symm hx
        · exact h
      have hxq : x.1 ≠ q := by
        intro heq
        apply hnd2.1
        rw [show x.1 = q from heq]
        exact List.mem_map.mpr ⟨(q, mems), hmem2, rfl⟩
      cases hfx : faqGroupOpt x with
      | none =>
        rw [List.filterMap_cons_none hfx]
        exact ih hnd2.2 hmem2 hopt
      | some g =>
        rw [List.filterMap_cons_some hfx]
        have hgid : g.id = "faq-conflict-" ++ x.1 := by
          rw [faqGroupOpt_some hfx, mkFaqGroup_id]
        rw [List.filter_cons_of_neg]
        · exact ih hnd2.2 hmem2 hopt
        · simp only [decide_eq_true_eq]
          rw [hgid]
          intro heq
          exact hxq (string_append_left_cancel heq)

/-- There is exactly one group for a conflicting FAQ question: the filtered
output of `detectConflicts` at its id is that single group. -/
theorem faq_exactly_one (es : List YextEntity) (q : String) (mems : List YextEntity)
    (hmem : (q, mems) ∈ groupByKey nameKey (es.filter (fun e => isFaqType e)))
    (hcond : 1 < mems.length ∧ 1 < ((mems.map normAnswer).dedup).length) :
    (detectConflicts es).filter (fun g => g.id = "faq-conflict-" ++ q) =
      [mkFaqGroup q mems] := by
  unfold detectConflicts
  rw [List.filter_append]
  have hnd : ((groupByKey nameKey (es.filter (fun e => isFaqType e))).map Prod.fst).Nodup := by
    rw [groupByKey_keys]
    exact nodup_uniqFirst _
  have hfaq := faq_aux q mems _ hnd hmem (by unfold faqGroupOpt; rw [if_pos hcond])
  have hpw : (pairwiseConflicts es).filter (fun g => g.id = "faq-conflict-" ++ q) = [] := by
    apply List.filter_eq_nil_iff.mpr
    intro g hg
    obtain ⟨n1, n2, hid⟩ := pairwise_id_shape hg
    simp only [decide_eq_true_eq]
    rw [hid]
    exact conflict_id_ne_faq_id n1 n2 q
  unfold faqConflicts
  rw [hfaq, hpw, List.append_nil]

theorem phoneDetail_some {e1 e2 : YextEntity} {d : ConflictDetail}
    (h : phoneDetail e1 e2 = some d) :
    d.conflictType = "phone_mismatch" ∧ d.severity = Severity.medium := by
  unfold phoneDetail at h
  split at h
  · split at h
    · have := Option.some.inj h
      subst this
      exact ⟨rfl, rfl⟩
    · cases h
  · cases h

theorem urlDetail_some {e1 e2 : YextEntity} {d : ConflictDetail}
    (h : urlDetail e1 e2 = some d) :
    d.conflictType = "url_mismatch" ∧ d.severity = Severity.medium := by
  unfold urlDetail at h
  split at h
  · have := Option.some.inj h
    subst this
    exact ⟨rfl, rfl⟩
  · cases h

/-- The conflict types the content branch can report. -/
def contentFamilyTypes : List String :=
  ["body_content_contradiction", "content_contradiction", "description_contradiction",
    "body_content_conflict", "content_conflict", "description_conflict", "inconsistent_data"]

theorem contentFieldAndType_snd_mem (e1 e2 : YextEntity) (b : Bool) :
    (contentFieldAndType e1 e2 b).2 ∈ contentFamilyTypes := by
  unfold contentFieldAndType
  split_ifs <;> cases b <;> simp [contentFamilyTypes]

theorem contentDetail_type {t : String} {e1 e2 : YextEntity} {d : ConflictDetail}
    (h : contentDetail t e1 e2 = some d) : d.conflictType ∈ contentFamilyTypes := by
  unfold contentDetail at h
  dsimp only [] at h
  split at h
  · split at h
    · split at h
      · have := Option.some.inj h
        subst this
        exact contentFieldAndType_snd_mem e1 e2 true
      · split at h
        · have := Option.some.inj h
          subst this
          exact contentFieldAndType_snd_mem e1 e2 false
        · cases h
    · cases h
  · cases h

theorem countP_option_le_one (o : Option ConflictDetail) (p : ConflictDetail → Bool) :
    o.toList.countP p ≤ 1 := by
  cases o with
  | none => simp [List.countP_nil]
  | some a =>
    simp only [Option.toList, List.countP_cons, List.countP_nil]
    split <;> omega

theorem countP_option_zero {o : Option ConflictDetail} {p : ConflictDetail → Bool}
    (h : ∀ d, o = some d → p d = false) : o.toList.countP p = 0 := by
  cases o with
  | none => rfl
  | some a => simp [List.countP_cons, h a rfl]

theorem length_option_le_one (o : Option ConflictDetail) : o.toList.length ≤ 1 := by
  cases o <;> simp

/-- Claim C5: every group returned by `detectConflicts` carries a non-empty
detail list and its severity is the maximum severity present among its
details under high > medium > low (so a pair accumulating zero details
produces no group at all). -/
theorem C5_group_severity_invariant (es : List YextEntity) (g : ConflictGroup)
    (hg : g ∈ detectConflicts es) :
    g.conflictDetails ≠ [] ∧
    g.severity ∈ g.conflictDetails.map (fun d => d.severity) ∧
    ∀ d ∈ g.conflictDetails, sevRank d.severity ≤ sevRank g.severity := by
  unfold detectConflicts at hg
  rcases List.mem_append.mp hg with h | h
  · obtain ⟨q, mems, _, _, hgeq⟩ := mem_faq_elim h
    subst hgeq
    have hdet : (mkFaqGroup q mems).conflictDetails = [mkFaqDetail mems] := rfl
    have hsev : (mkFaqGroup q mems).severity = Severity.high := rfl
    refine ⟨by rw [hdet]; simp, ?_, ?_⟩
    · rw [hsev, hdet]
      simp only [List.map_cons, List.map_nil, List.mem_singleton]
      rfl
    · intro d hd
      rw [hdet] at hd
      simp only [List.mem_singleton] at hd
      subst hd
      rw [hsev]
      exact Nat.le_refl _
  · obtain ⟨t, grp, e1, e2, _, _, hmk⟩ := mem_pairwise_elim h
    obtain ⟨hne, hdet, _, hsev, _⟩ := mkPairGroup_some hmk
    rw [hdet, hsev]
    obtain ⟨hm, hb⟩ := jsSeverity3_spec _ hne
    exact ⟨hne, hm, hb⟩

/-- Claim C10: a pairwise-path group has exactly two entities and at most
three details — at most one content-family detail, one phone detail, one
URL detail. -/
theorem C10_pairwise_group_shape (es : List YextEntity) (g : ConflictGroup)
    (hg : g ∈ pairwiseConflicts es) :
    g.entities.length = 2 ∧ g.conflictDetails.length ≤ 3 ∧
    g.conflictDetails.countP (fun d => d.conflictType ∈ contentFamilyTypes) ≤ 1 ∧
    g.conflictDetails.countP (fun d => d.conflictType = "phone_mismatch") ≤ 1 ∧
    g.conflictDetails.countP (fun d => d.conflictType = "url_mismatch") ≤ 1 := by
  obtain ⟨t, grp, e1, e2, _, _, hmk⟩ := mem_pairwise_elim hg
  obtain ⟨_, hdet, hent, _, _⟩ := mkPairGroup_some hmk
  have hL : pairDetails t e1 e2 =
      (contentDetail t e1 e2).toList ++ (phoneDetail e1 e2).toList ++
        (urlDetail e1 e2).toList := rfl
  have hcontentFam : ∀ d, contentDetail t e1 e2 = some d →
      (decide (d.conflictType ∈ contentFamilyTypes) = true ∧
        decide (d.conflictType = "phone_mismatch") = false ∧
        decide (d.conflictType = "url_mismatch") = false) := by
    intro d hd
    have hmem := contentDetail_type hd
    refine ⟨decide_eq_true hmem, decide_eq_false ?_, decide_eq_false ?_⟩
    · intro hph
      rw [hph] at hmem
      exact absurd hmem (by decide)
    · intro hu
      rw [hu] at hmem
      exact absurd hmem (by decide)
  have hphoneFacts : ∀ d, phoneDetail e1 e2 = some d →
      (decide (d.conflictType ∈ contentFamilyTypes) = false ∧
        decide (d.conflictType = "url_mismatch") = false) := by
    intro d hd
    have := (phoneDetail_some hd).1
    rw [this]
    exact ⟨decide_eq_false (by decide), decide_eq_false (by decide)⟩
  have hurlFacts : ∀ d, urlDetail e1 e2 = some d →
      (decide (d.conflictType ∈ contentFamilyTypes) = false ∧
        decide (d.conflictType = "phone_mismatch") = false) := by
    intro d hd
    have := (urlDetail_some hd).1
    rw [this]
    exact ⟨decide_eq_false (by decide), decide_eq_false (by decide)⟩
  refine ⟨by rw [hent]; rfl, ?_, ?_, ?_, ?_⟩
  · rw [hdet, hL]
    simp only [List.length_append]
    have h1 := length_option_le_one (contentDetail t e1 e2)
    have h2 := length_option_le_one (phoneDetail e1 e2)
    have h3 := length_option_le_one (urlDetail e1 e2)
    omega
  · rw [hdet, hL, List.countP_append, List.countP_append]
    have h1 := countP_option_le_one (contentDetail t e1 e2)
      (fun d => decide (d.conflictType ∈ contentFamilyTypes))
    have h2 := countP_option_zero (fun d hd => (hphoneFacts d hd).1)
    have h3 := countP_option_zero (fun d hd => (hurlFacts d hd).1)
    omega
  · rw [hdet, hL, List.countP_append, List.countP_append]
    have h1 := countP_option_zero (fun d hd => (hcontentFam d hd).2.1)
    have h2 := countP_option_le_one (phoneDetail e1 e2)
      (fun d => decide (d.conflictType = "phone_mismatch"))
    have h3 := countP_option_zero (fun d hd => (hurlFacts d hd).2)
    omega
  · rw [hdet, hL, List.countP_append, List.countP_append]
    have h1 := countP_option_zero (fun d hd => (hcontentFam d hd).2.2)
    have h2 := countP_option_zero (fun d hd => (hphoneFacts d hd).2)
    have h3 := countP_option_le_one (urlDetail e1 e2)
      (fun d => decide (d.conflictType = "url_mismatch"))
    omega

/-- Severity counts partition any group list. -/
theorem severity_counts_partition : ∀ (gs : List ConflictGroup),
    (gs.filter (fun c => c.severity = Severity.high)).length +
      (gs.filter (fun c => c.severity = Severity.medium)).length +
      (gs.filter (fun c => c.severity = Severity.low)).length = gs.length := by
  intro gs
  induction gs with
  | nil => rfl
  | cons g rest ih =>
    cases hs : g.severity <;>
      simp only [List.filter_cons, hs, decide_eq_true_eq, List.length_cons] <;>
      simp <;> omega

/-- The inline truthiness check of `getConflictSummary` equals filtering the
defined ids for non-emptiness. -/
theorem affected_filter (l : List EntityRef) :
    l.filterMap (fun en =>
        match en.id with
        | some s => if s ≠ "" then some s else none
        | none => none) =
      (l.filterMap (fun en => en.id)).filter (fun s => s ≠ "") := by
  induction l with
  | nil => rfl
  | cons en rest ih =>
    cases hid : en.id with
    | none => simpa [List.filterMap_cons, hid] using ih
    | some s =>
      by_cases hs : s = ""
      · simpa [List.filterMap_cons, hid, hs, List.filter_cons] using ih
      · simpa [List.filterMap_cons, hid, hs, List.filter_cons] using ih

/-- Claim C6 (amended): `totalConflicts` is the group count and the severity
counts partition it; `affectedEntities` counts the distinct defined,
non-empty identifiers across all groups (entities with a missing or empty id
are skipped). -/
theorem C6_amended_summary_consistency (gs : List ConflictGroup) :
    (getConflictSummary gs).totalConflicts = gs.length ∧
    (getConflictSummary gs).highSeverity + (getConflictSummary gs).mediumSeverity +
      (getConflictSummary gs).lowSeverity = (getConflictSummary gs).totalConflicts ∧
    (getConflictSummary gs).affectedEntities =
      (((gs.flatMap (fun c => c.entities)).filterMap (fun en => en.id)).filter
        (fun s => s ≠ "")).dedup.length := by
  refine ⟨rfl, severity_counts_partition gs, ?_⟩
  show ((gs.flatMap (fun c => c.entities)).filterMap (fun en =>
      match en.id with
      | some s => if s ≠ "" then some s else none
      | none => none)).dedup.length = _
  rw [affected_filter]

/-- The identifier set the claim describes: every identifier appearing in the
groups' entities lists (the spec formula, with no non-emptiness filter). -/
def specAffectedEntities (gs : List ConflictGroup) : Nat :=
  ((gs.flatMap (fun c => c.entities)).filterMap (fun en => en.id)).dedup.length

/-- A group whose single entity carries the (defined) empty-string id. -/
def c6Group : ConflictGroup :=
  { id := "conflict-x-y"
    title := "Potential conflict between \"x\" and \"y\""
    entities := [{ id := some "", name := some "x", type := some "t" }]
    conflictDetails := [{ field := "mainPhone"
                          values := []
                          conflictType := "phone_mismatch"
                          severity := Severity.medium
                          description := "d" }]
    severity := Severity.medium }

/-- Claim C6 as stated is false: an entity with the empty string as id is an
identifier appearing in the entities lists, but `getConflictSummary` skips
falsy ids, so `affectedEntities` undercounts it. -/
theorem C6_counterexample :
    (getConflictSummary [c6Group]).affectedEntities = 0 ∧
    specAffectedEntities [c6Group] = 1 ∧
    (getConflictSummary [c6Group]).affectedEntities ≠ specAffectedEntities [c6Group] := by
  decide

/-- Claim C7: boundary values, symmetry, range and the
`(maxLen - levenshtein) / maxLen` formula of `calculateSimilarity`. -/
theorem C7_similarity_properties (s s1 s2 : String) :
    calculateSimilarity s s = 1 ∧
    calculateSimilarity "" "" = 1 ∧
    calculateSimilarity "" "abc" = 0 ∧
    calculateSimilarity s1 s2 = calculateSimilarity s2 s1 ∧
    0 ≤ calculateSimilarity s1 s2 ∧
    calculateSimilarity s1 s2 ≤ 1 ∧
    (0 < max s1.data.length s2.data.length →
      calculateSimilarity s1 s2 =
        (((max s1.data.length s2.data.length : Nat) : ℚ) - (lev s1.data s2.data : ℚ)) /
          ((max s1.data.length s2.data.length : Nat) : ℚ)) := by
  refine ⟨simCore_self s.data, by decide, by decide, simCore_comm s1.data s2.data,
    simCore_nonneg s1.data s2.data, simCore_le_one s1.data s2.data,
    fun h => simCore_formula s1.data s2.data h⟩

theorem C7_witness :
    calculateSimilarity "ab" "b" =
      (((max "ab".data.length "b".data.length : Nat) : ℚ) - (lev "ab".data "b".data : ℚ)) /
        ((max "ab".data.length "b".data.length : Nat) : ℚ) ∧
    calculateSimilarity "a" "a" = 1 := by
  have h := C7_similarity_properties "a" "ab" "b"
  exact ⟨h.2.2.2.2.2.2 (by decide), h.1⟩

/-- Claim C8 as stated is false: `normalizeString` is not idempotent, because
removing edge punctuation can leave a leading (or trailing) space that only a
second pass trims. -/
theorem C8_counterexample :
    normalizeString (normalizeString ". a") ≠ normalizeString ". a" := by
  decide

/-- Claim C8 (amended): applying `normalizeString` twice equals trimming its
single application; the two agree exactly when the first pass leaves no edge
whitespace. -/
theorem C8_amended_idempotent_up_to_trim (s : String) :
    normalizeString (normalizeString s) = ⟨trimL (normalizeString s).data⟩ :=
  normalizeString_twice s

/-! ## Per-branch firing and non-firing lemmas -/

theorem mem_pairDetails_content {t : String} {e1 e2 : YextEntity} {d : ConflictDetail}
    (h : contentDetail t e1 e2 = some d) : d ∈ pairDetails t e1 e2 := by
  unfold pairDetails
  exact List.mem_append_left _ (List.mem_append_left _ (by rw [h]; simp))

theorem mem_pairDetails_phone {t : String} {e1 e2 : YextEntity} {d : ConflictDetail}
    (h : phoneDetail e1 e2 = some d) : d ∈ pairDetails t e1 e2 := by
  unfold pairDetails
  exact List.mem_append_left _ (List.mem_append_right _ (by rw [h]; simp))

theorem mem_pairDetails_url {t : String} {e1 e2 : YextEntity} {d : ConflictDetail}
    (h : urlDetail e1 e2 = some d) : d ∈ pairDetails t e1 e2 := by
  unfold pairDetails
  exact List.mem_append_right _ (by rw [h]; simp)

theorem phoneDetail_fires {e1 e2 : YextEntity} {p1 p2 : String}
    (hp1 : e1.mainPhone = some p1) (hne1 : p1 ≠ "")
    (hp2 : e2.mainPhone = some p2) (hne2 : p2 ≠ "")
    (heq : normalizePhone p1 = normalizePhone p2) (hname : e1.name ≠ e2.name) :
    ∃ d, phoneDetail e1 e2 = some d ∧
      d.conflictType = "phone_mismatch" ∧ d.severity = Severity.medium := by
  have ht1 : truthyS e1.mainPhone = true := by
    rw [hp1]; exact decide_eq_true hne1
  have ht2 : truthyS e2.mainPhone = true := by
    rw [hp2]; exact decide_eq_true hne2
  unfold phoneDetail
  rw [if_pos (by rw [ht1, ht2]; rfl)]
  rw [if_pos ⟨by rw [hp1, hp2]; exact heq, hname⟩]
  exact ⟨_, rfl, rfl, rfl⟩

theorem urlDetail_fires {e1 e2 : YextEntity} {u1 u2 : String}
    (hu1 : e1.websiteUrl = some u1) (hne1 : u1 ≠ "")
    (hu2 : e2.websiteUrl = some u2) (hne2 : u2 ≠ "")
    (heq : u1 = u2) (hname : e1.name ≠ e2.name) :
    ∃ d, urlDetail e1 e2 = some d ∧
      d.conflictType = "url_mismatch" ∧ d.severity = Severity.medium := by
  unfold urlDetail
  rw [if_pos]
  · exact ⟨_, rfl, rfl, rfl⟩
  · rw [hu1, hu2]
    simp only [Bool.and_eq_true]
    refine ⟨⟨⟨decide_eq_true hne1, decide_eq_true hne2⟩, decide_eq_true ?_⟩, decide_eq_true hname⟩
    exact heq

theorem contentDetail_none_of_equal {t : String} {e1 e2 : YextEntity}
    (hcontent : normalizeString (contentFor e1) = normalizeString (contentFor e2)) :
    contentDetail t e1 e2 = none := by
  unfold contentDetail
  dsimp only []
  split
  · split
    · rw [if_neg (fun hc => hc.1 hcontent), if_neg (fun hc => hc hcontent)]
    · rfl
  · rfl

theorem phoneDetail_none_of {e1 e2 : YextEntity}
    (hphone : truthyS e1.mainPhone = true → truthyS e2.mainPhone = true →
      normalizePhone (optStr e1.mainPhone) = normalizePhone (optStr e2.mainPhone) →
      e1.name = e2.name) :
    phoneDetail e1 e2 = none := by
  unfold phoneDetail
  split
  · next htr =>
    rw [if_neg]
    intro hc
    obtain ⟨ht1, ht2⟩ := (Bool.and_eq_true _ _).mp htr
    exact hc.2 (hphone ht1 ht2 hc.1)
  · rfl

theorem urlDetail_none_of {e1 e2 : YextEntity}
    (hurl : truthyS e1.websiteUrl = true → truthyS e2.websiteUrl = true →
      optStr e1.websiteUrl = optStr e2.websiteUrl → e1.name = e2.name) :
    urlDetail e1 e2 = none := by
  unfold urlDetail
  rw [if_neg]
  intro hc
  simp only [Bool.and_eq_true] at hc
  obtain ⟨⟨⟨ht1, ht2⟩, heq⟩, hne⟩ := hc
  exact (of_decide_eq_true hne) (hurl ht1 ht2 (of_decide_eq_true heq))

theorem detectSemantic_eq_false_of_norm_eq {t1 t2 : String}
    (h : normalizeString t1 = normalizeString t2) :
    detectSemanticContradictions t1 t2 = false := by
  unfold detectSemanticContradictions
  dsimp only []
  rw [if_pos h]

/-- The conflict types of the difference (non-contradiction) content branch. -/
def contentDifferenceTypes : List String :=
  ["inconsistent_data", "body_content_conflict", "content_conflict", "description_conflict"]

theorem contentFieldAndType_false_mem (e1 e2 : YextEntity) :
    (contentFieldAndType e1 e2 false).2 ∈ contentDifferenceTypes := by
  unfold contentFieldAndType
  split_ifs <;> simp_all [contentDifferenceTypes]

theorem contentDetail_medium_of (t : String) (e1 e2 : YextEntity) (A B : String)
    (hc1 : contentFor e1 = A) (hc2 : contentFor e2 = B)
    (hAne : A ≠ "") (hBne : B ≠ "")
    (hdiff : normalizeString A ≠ normalizeString B)
    (hsem : detectSemanticContradictions A B = false)
    (hsim : calculateSimilarity (normalizeString (optStr e1.name))
      (normalizeString (optStr e2.name)) > 3 / 10) :
    ∃ d, contentDetail t e1 e2 = some d ∧ d.severity = Severity.medium ∧
      d.conflictType ∈ contentDifferenceTypes := by
  unfold contentDetail
  dsimp only []
  rw [if_pos hsim, hc1, hc2, if_pos ⟨hAne, hBne⟩]
  rw [if_neg (fun hc => by rw [hsem] at hc; exact Bool.false_ne_true hc.2), if_pos hdiff]
  exact ⟨_, rfl, rfl, contentFieldAndType_false_mem e1 e2⟩

/-! ## Claims C1–C4, C9 -/

/-- Claim C1: two FAQ-category records with the same normalized question and
different normalized answers (answer falling back to description) produce
exactly one ConflictGroup for that question, whose single ConflictDetail is a
high-severity `faq_answer_conflict`, and whose entities include both
records. -/
theorem C1_faq_rule (es : List YextEntity) (r1 r2 : YextEntity)
    (h1 : r1 ∈ es) (h2 : r2 ∈ es)
    (hf1 : isFaqType r1 = true) (hf2 : isFaqType r2 = true)
    (hq : nameKey r2 = nameKey r1)
    (hans : normAnswer r1 ≠ normAnswer r2) :
    ∃ g, (detectConflicts es).filter (fun g => g.id = "faq-conflict-" ++ nameKey r1) = [g] ∧
      (∃ d, g.conflictDetails = [d] ∧ d.conflictType = "faq_answer_conflict" ∧
        d.severity = Severity.high) ∧
      mkEntityRef r1 ∈ g.entities ∧ mkEntityRef r2 ∈ g.entities := by
  have hne : r1 ≠ r2 := fun h => hans (by rw [h])
  have hm1 : r1 ∈ es.filter (fun e => isFaqType e) := List.mem_filter.mpr ⟨h1, hf1⟩
  have hm2 : r2 ∈ es.filter (fun e => isFaqType e) := List.mem_filter.mpr ⟨h2, hf2⟩
  have hmm1 : r1 ∈ (es.filter (fun e => isFaqType e)).filter
      (fun x => nameKey x = nameKey r1) :=
    List.mem_filter.mpr ⟨hm1, by simp⟩
  have hmm2 : r2 ∈ (es.filter (fun e => isFaqType e)).filter
      (fun x => nameKey x = nameKey r1) :=
    List.mem_filter.mpr ⟨hm2, by simp [hq]⟩
  have hbucket := mem_groupByKey_self nameKey (es.filter (fun e => isFaqType e)) r1 hm1
  have hcond : 1 < ((es.filter (fun e => isFaqType e)).filter
        (fun x => nameKey x = nameKey r1)).length ∧
      1 < ((((es.filter (fun e => isFaqType e)).filter
        (fun x => nameKey x = nameKey r1)).map normAnswer).dedup).length := by
    constructor
    · exact one_lt_length_of_two_mem hmm1 hmm2 hne
    · have ha1 : normAnswer r1 ∈ (((es.filter (fun e => isFaqType e)).filter
          (fun x => nameKey x = nameKey r1)).map normAnswer).dedup :=
        List.mem_dedup.mpr (List.mem_map.mpr ⟨r1, hmm1, rfl⟩)
      have ha2 : normAnswer r2 ∈ (((es.filter (fun e => isFaqType e)).filter
          (fun x => nameKey x = nameKey r1)).map normAnswer).dedup :=
        List.mem_dedup.mpr (List.mem_map.mpr ⟨r2, hmm2, rfl⟩)
      exact one_lt_length_of_two_mem ha1 ha2 hans
  have hone := faq_exactly_one es (nameKey r1) _ hbucket hcond
  refine ⟨mkFaqGroup (nameKey r1) _, hone, ⟨mkFaqDetail _, rfl, rfl, rfl⟩, ?_, ?_⟩
  · exact List.mem_map.mpr ⟨r1, hmm1, rfl⟩
  · exact List.mem_map.mpr ⟨r2, hmm2, rfl⟩

def c1r1 : YextEntity :=
  { name := some "What are your hours?", answer := some "We close at 5pm"
    meta := some { entityType := some "faq" } }

def c1r2 : YextEntity :=
  { name := some "what are your hours", answer := some "We close at 9pm"
    meta := some { entityType := some "ce_faq" } }

theorem C1_witness :
    ∃ g, (detectConflicts [c1r1, c1r2]).filter
        (fun g => g.id = "faq-conflict-" ++ nameKey c1r1) = [g] ∧
      (∃ d, g.conflictDetails = [d] ∧ d.conflictType = "faq_answer_conflict" ∧
        d.severity = Severity.high) ∧
      mkEntityRef c1r1 ∈ g.entities ∧ mkEntityRef c1r2 ∈ g.entities :=
  C1_faq_rule [c1r1, c1r2] c1r1 c1r2 (by decide) (by decide) (by decide) (by decide)
    (by decide) (by decide)

/-- Claim C4: two same-category non-excluded records with different display
names that share a normalized phone digit-string produce a medium-severity
`phone_mismatch` detail, and sharing a website URL produces a medium-severity
`url_mismatch` detail; no name-similarity condition is involved. -/
theorem C4_shared_contact_details (es : List YextEntity) (e1 e2 : YextEntity)
    (h1 : e1 ∈ es) (h2 : e2 ∈ es)
    (hx1 : excludedType e1 = false) (hx2 : excludedType e2 = false)
    (hkey : bucketKey e1 = bucketKey e2)
    (hname : e1.name ≠ e2.name) :
    (∀ p1 p2, e1.mainPhone = some p1 → p1 ≠ "" → e2.mainPhone = some p2 → p2 ≠ "" →
      normalizePhone p1 = normalizePhone p2 →
      ∃ g ∈ detectConflicts es, ∃ d ∈ g.conflictDetails,
        d.conflictType = "phone_mismatch" ∧ d.severity = Severity.medium) ∧
    (∀ u1 u2, e1.websiteUrl = some u1 → u1 ≠ "" → e2.websiteUrl = some u2 → u2 ≠ "" →
      u1 = u2 →
      ∃ g ∈ detectConflicts es, ∃ d ∈ g.conflictDetails,
        d.conflictType = "url_mismatch" ∧ d.severity = Severity.medium) := by
  have hne : e1 ≠ e2 := fun h => hname (by rw [h])
  constructor
  · intro p1 p2 hp1 hpne1 hp2 hpne2 hpeq
    apply exists_pair_detail es e1 e2 _ h1 h2 hne hx1 hx2 hkey
    · obtain ⟨d, hd, hty, hsev⟩ := phoneDetail_fires hp1 hpne1 hp2 hpne2 hpeq hname
      exact ⟨d, mem_pairDetails_phone hd, hty, hsev⟩
    · obtain ⟨d, hd, hty, hsev⟩ :=
        phoneDetail_fires hp2 hpne2 hp1 hpne1 hpeq.symm (fun h => hname h.symm)
      exact ⟨d, mem_pairDetails_phone hd, hty, hsev⟩
  · intro u1 u2 hu1 hune1 hu2 hune2 hueq
    apply exists_pair_detail es e1 e2 _ h1 h2 hne hx1 hx2 hkey
    · obtain ⟨d, hd, hty, hsev⟩ := urlDetail_fires hu1 hune1 hu2 hune2 hueq hname
      exact ⟨d, mem_pairDetails_url hd, hty, hsev⟩
    · obtain ⟨d, hd, hty, hsev⟩ :=
        urlDetail_fires hu2 hune2 hu1 hune1 hueq.symm (fun h => hname h.symm)
      exact ⟨d, mem_pairDetails_url hd, hty, hsev⟩

def c4e1 : YextEntity :=
  { name := some "Alpha", mainPhone := some "(555) 111"
    websiteUrl := some "https://x.example", meta := some { entityType := some "t" } }

def c4e2 : YextEntity :=
  { name := some "Beta", mainPhone := some "555-111"
    websiteUrl := some "https://x.example", meta := some { entityType := some "t" } }

theorem C4_witness :
    (∃ g ∈ detectConflicts [c4e1, c4e2], ∃ d ∈ g.conflictDetails,
      d.conflictType = "phone_mismatch" ∧ d.severity = Severity.medium) ∧
    (∃ g ∈ detectConflicts [c4e1, c4e2], ∃ d ∈ g.conflictDetails,
      d.conflictType = "url_mismatch" ∧ d.severity = Severity.medium) := by
  have h := C4_shared_contact_details [c4e1, c4e2] c4e1 c4e2 (by decide) (by decide)
    (by decide) (by decide) (by decide) (by decide)
  exact ⟨h.1 "(555) 111" "555-111" rfl (by decide) rfl (by decide) (by decide),
    h.2 "https://x.example" "https://x.example" rfl (by decide) rfl (by decide) rfl⟩

/-- The two contents of the contradiction example of the spec. -/
def storeContentA : String := "The store is open on Sundays"

def storeContentB : String := "The store is not open on Sundays"

def c2e1 : YextEntity :=
  { name := some "Store", content := some storeContentA
    meta := some { entityType := some "t" } }

def c2e2 : YextEntity :=
  { name := some "Store2", content := some storeContentB
    meta := some { entityType := some "t" } }

/-- Claim C2 as stated is false: on the example pair no contradiction layer
fires (`detectSemanticContradictions` returns false — the lexical-pattern
table is not part of it, and no fact is extracted from the first text), so
the emitted detail is the medium-severity `content_conflict`, not a
high-severity contradiction. -/
theorem C2_counterexample :
    contentFor c2e1 = storeContentA ∧ contentFor c2e2 = storeContentB ∧
    bucketKey c2e1 = bucketKey c2e2 ∧
    calculateSimilarity (normalizeString (optStr c2e1.name))
      (normalizeString (optStr c2e2.name)) > 3 / 10 ∧
    detectSemanticContradictions storeContentA storeContentB = false ∧
    (detectConflicts [c2e1, c2e2]).length = 1 ∧
    ∀ g ∈ detectConflicts [c2e1, c2e2], ∀ d ∈ g.conflictDetails,
      d.severity = Severity.medium ∧ d.conflictType = "content_conflict" := by
  decide

/-- Claim C2 (amended): the example pair produces a medium-severity
content-difference ConflictDetail (no contradiction layer fires on it). -/
theorem C2_amended_medium_content_conflict (es : List YextEntity) (e1 e2 : YextEntity)
    (h1 : e1 ∈ es) (h2 : e2 ∈ es)
    (hx1 : excludedType e1 = false) (hx2 : excludedType e2 = false)
    (hkey : bucketKey e1 = bucketKey e2)
    (hc1 : contentFor e1 = storeContentA) (hc2 : contentFor e2 = storeContentB)
    (hsim : calculateSimilarity (normalizeString (optStr e1.name))
      (normalizeString (optStr e2.name)) > 3 / 10) :
    detectSemanticContradictions storeContentA storeContentB = false ∧
    ∃ g ∈ detectConflicts es, ∃ d ∈ g.conflictDetails,
      d.severity = Severity.medium ∧ d.conflictType ∈ contentDifferenceTypes := by
  refine ⟨by decide, ?_⟩
  have hne : e1 ≠ e2 := by
    intro h
    rw [h, hc2] at hc1
    exact absurd hc1 (by decide)
  have hsim2 : calculateSimilarity (normalizeString (optStr e2.name))
      (normalizeString (optStr e1.name)) > 3 / 10 := by
    rw [show calculateSimilarity (normalizeString (optStr e2.name))
        (normalizeString (optStr e1.name)) =
      calculateSimilarity (normalizeString (optStr e1.name))
        (normalizeString (optStr e2.name)) from simCore_comm _ _]
    exact hsim
  apply exists_pair_detail es e1 e2 _ h1 h2 hne hx1 hx2 hkey
  · obtain ⟨d, hd, hsev, hty⟩ := contentDetail_medium_of (bucketKey e1) e1 e2
      storeContentA storeContentB hc1 hc2 (by decide) (by decide) (by decide) (by decide) hsim
    exact ⟨d, mem_pairDetails_content hd, hsev, hty⟩
  · obtain ⟨d, hd, hsev, hty⟩ := contentDetail_medium_of (bucketKey e1) e2 e1
      storeContentB storeContentA hc2 hc1 (by decide) (by decide) (by decide) (by decide) hsim2
    exact ⟨d, mem_pairDetails_content hd, hsev, hty⟩

theorem C2_witness :
    detectSemanticContradictions storeContentA storeContentB = false ∧
    ∃ g ∈ detectConflicts [c2e1, c2e2], ∃ d ∈ g.conflictDetails,
      d.severity = Severity.medium ∧ d.conflictType ∈ contentDifferenceTypes :=
  C2_amended_medium_content_conflict [c2e1, c2e2] c2e1 c2e2 (by decide) (by decide)
    (by decide) (by decide) (by decide) (by decide) (by decide) (by decide)

def c3e1 : YextEntity :=
  { name := some "a", mainPhone := some "1", meta := some { entityType := some "t" } }

def c3e2 : YextEntity :=
  { name := some "a!", mainPhone := some "1", meta := some { entityType := some "t" } }

/-- Claim C3 as stated is false: name similarity 1.0 does not imply equal raw
display names, and the phone/URL checks compare raw names, so a pair with
identical (empty, hence equal after normalization) contents and similarity
1.0 can still receive a `phone_mismatch` ConflictDetail. -/
theorem C3_counterexample :
    calculateSimilarity (normalizeString (optStr c3e1.name))
      (normalizeString (optStr c3e2.name)) = 1 ∧
    normalizeString (contentFor c3e1) = normalizeString (contentFor c3e2) ∧
    bucketKey c3e1 = bucketKey c3e2 ∧
    ((detectConflicts [c3e1, c3e2]).flatMap (fun g => g.conflictDetails)).map
      (fun d => d.conflictType) = ["phone_mismatch"] := by
  decide

/-- Claim C3 (amended): a same-category pair with name similarity 1.0 and
contents equal after normalization yields zero ConflictDetails, provided the
pair does not share an identical normalized phone digit-string or website URL
under different raw display names; and the contradiction engine's equal-text
short-circuit returns no contradiction. -/
theorem C3_amended_no_details_on_agreement (t : String) (e1 e2 : YextEntity)
    (t1 t2 : String)
    (hsim : calculateSimilarity (normalizeString (optStr e1.name))
      (normalizeString (optStr e2.name)) = 1)
    (hcontent : normalizeString (contentFor e1) = normalizeString (contentFor e2))
    (hphone : truthyS e1.mainPhone = true → truthyS e2.mainPhone = true →
      normalizePhone (optStr e1.mainPhone) = normalizePhone (optStr e2.mainPhone) →
      e1.name = e2.name)
    (hurl : truthyS e1.websiteUrl = true → truthyS e2.websiteUrl = true →
      optStr e1.websiteUrl = optStr e2.websiteUrl → e1.name = e2.name)
    (heq : normalizeString t1 = normalizeString t2) :
    pairDetails t e1 e2 = [] ∧ mkPairGroup t e1 e2 = none ∧
      detectSemanticContradictions t1 t2 = false := by
  have hds : pairDetails t e1 e2 = [] := by
    unfold pairDetails
    rw [contentDetail_none_of_equal hcontent, phoneDetail_none_of hphone,
      urlDetail_none_of hurl]
    rfl
  refine ⟨hds, ?_, detectSemantic_eq_false_of_norm_eq heq⟩
  unfold mkPairGroup
  rw [hds]
  rfl

def c3wE : YextEntity :=
  { name := some "n", content := some "hello", meta := some { entityType := some "t" } }

theorem C3_witness :
    pairDetails "t" c3wE c3wE = [] ∧ mkPairGroup "t" c3wE c3wE = none ∧
      detectSemanticContradictions "x" "x" = false :=
  C3_amended_no_details_on_agreement "t" c3wE c3wE "x" "x" (by decide) rfl
    (fun _ _ _ => rfl) (fun _ _ _ => rfl) rfl

def c9a : YextEntity :=
  { name := some "a", mainPhone := some "1", meta := some { entityType := some "t" } }

def c9b1 : YextEntity :=
  { id := some "x1", name := some "b", mainPhone := some "1"
    meta := some { entityType := some "t" } }

def c9b2 : YextEntity :=
  { id := some "x2", name := some "b", mainPhone := some "1"
    meta := some { entityType := some "t" } }

/-- Claim C9 fails on the code: a pairwise group id is derived from the two
display names only, so two pairs involving equally-named records collide —
one run can return two groups with the same id. -/
theorem C9_duplicate_group_ids :
    (detectConflicts [c9a, c9b1, c9b2]).map (fun g => g.id) =
      ["conflict-a-b", "conflict-a-b"] ∧
    ¬ ((detectConflicts [c9a, c9b1, c9b2]).map (fun g => g.id)).Nodup := by
  decide

def c5e1 : YextEntity :=
  { name := some "Gamma", mainPhone := some "777", meta := some { entityType := some "t5" } }

def c5e2 : YextEntity :=
  { name := some "Delta", mainPhone := some "777", meta := some { entityType := some "t5" } }

def c5es : List YextEntity := [c5e1, c5e2]

def c5g : ConflictGroup := (detectConflicts c5es).get ⟨0, by decide⟩

theorem C5_witness :
    c5g.conflictDetails ≠ [] ∧
    c5g.severity ∈ c5g.conflictDetails.map (fun d => d.severity) ∧
    ∀ d ∈ c5g.conflictDetails, sevRank d.severity ≤ sevRank c5g.severity :=
  C5_group_severity_invariant c5es c5g (by decide)

def c10e1 : YextEntity :=
  { name := some "Epsilon", mainPhone := some "888"
    websiteUrl := some "https://y.example", meta := some { entityType := some "t10" } }

def c10e2 : YextEntity :=
  { name := some "Zeta", mainPhone := some "888"
    websiteUrl := some "https://y.example", meta := some { entityType := some "t10" } }

def c10es : List YextEntity := [c10e1, c10e2]

def c10g : ConflictGroup := (pairwiseConflicts c10es).get ⟨0, by decide⟩

theorem C10_witness :
    c10g.entities.length = 2 ∧ c10g.conflictDetails.length ≤ 3 ∧
    c10g.conflictDetails.countP (fun d => d.conflictType ∈ contentFamilyTypes) ≤ 1 ∧
    c10g.conflictDetails.countP (fun d => d.conflictType = "phone_mismatch") ≤ 1 ∧
    c10g.conflictDetails.countP (fun d => d.conflictType = "url_mismatch") ≤ 1 :=
  C10_pairwise_group_shape c10es c10g (by decide)

end KG
